import Mathlib

/-!
# SX127x LoRa driver (`Core/Src/LoRa.c`): embedding and verified properties

The driver talks to the radio through blocking SPI transactions and
`HAL_Delay`.  The radio and the HAL are outside the two source files, so the
chip is a parameter: an arbitrary deterministic machine `Chip σ` that answers
read transactions, absorbs write transactions and lets time pass.  Every
transaction and every delay is also appended to a log, so that statements
about "what the driver writes" and "how often it polls" can be made about the
code itself and not about one particular chip.

`LoRa.h` (register addresses, mode and status macros, the `LoRa` struct) is
not among the sources; its macros are the fields of `LoRa_h`, and the theorems
hold for all values of these fields unless they say otherwise.
-/

namespace LoRaDriver

/-! ## What the driver takes from outside -/

/-- The macros of `LoRa.h` used by `LoRa.c`, together with the one value that C
leaves undefined in `LoRa_setAutoLDO` (`ldoUndefined`, see there). -/
structure LoRa_h where
  SLEEP_MODE : Int
  STNBY_MODE : Int
  TRANSMIT_MODE : Int
  RXCONTIN_MODE : Int
  RXSINGLE_MODE : Int
  RegFiFo : Nat
  RegOpMode : Nat
  RegFrMsb : Nat
  RegFrMid : Nat
  RegFrLsb : Nat
  RegPaConfig : Nat
  RegOcp : Nat
  RegLna : Nat
  RegFiFoAddPtr : Nat
  RegFiFoTxBaseAddr : Nat
  RegFiFoRxCurrentAddr : Nat
  RegIrqFlags : Nat
  RegRxNbBytes : Nat
  RegPktRssiValue : Nat
  RegModemConfig1 : Nat
  RegModemConfig2 : Nat
  RegModemConfig3 : Nat
  RegSymbTimeoutL : Nat
  RegPreambleMsb : Nat
  RegPreambleLsb : Nat
  RegPayloadLength : Nat
  RegDioMapping1 : Nat
  RegSyncWord : Nat
  RegVersion : Nat
  LORA_OK : Nat
  LORA_NOT_FOUND : Nat
  LORA_UNAVAILABLE : Nat
  ldoUndefined : Nat → Nat → Bool

/-- Modelled from the spec: the `LoRa` struct, declared in `LoRa.h`, which is not
among the sources.  The fields are those `LoRa.c` accesses (the data model of
the specification names the same settings), module settings only: the pin and
SPI handle fields select the transport and carry no driver state.
`current_mode` and `frequency` are used as `int` by the code; the others are
passed to `uint8_t`/`uint16_t` parameters, which is where the model reduces
them. -/
structure LoRa where
  current_mode : Int
  frequency : Int
  spredingFactor : Nat
  bandWidth : Nat
  crcRate : Nat
  preamble : Nat
  power : Nat
  overCurrentProtection : Nat
deriving DecidableEq, Repr

/-- One observable step of the driver on the transport: a read transaction
(address bytes sent, bytes received), a write transaction (address bytes sent,
payload bytes sent) or a `HAL_Delay` of so many milliseconds. -/
inductive Ev where
  | rx (addr : List Nat) (out : List Nat)
  | tx (addr : List Nat) (vals : List Nat)
  | delay (ms : Nat)
deriving DecidableEq, Repr

/-- Behaviour of the radio seen through the blocking transport: the answer to a
read transaction, the effect of a write transaction, and the effect of time
passing. -/
structure Chip (σ : Type) where
  readReg : σ → List Nat → Nat → List Nat × σ
  writeReg : σ → List Nat → List Nat → σ
  delay : σ → Nat → σ

/-- State the driver runs in: the `LoRa` object, the chip, and the log of what
has happened on the transport so far. -/
structure Sys (σ : Type) where
  lora : LoRa
  chip : σ
  log : List Ev

variable {σ : Type}

/-! ## Transport primitives -/

/-- The `HAL_Delay(ms)` call: time passes on the chip. -/
def HAL_Delay (C : Chip σ) (s : Sys σ) (ms : Nat) : Sys σ :=
  { s with chip := C.delay s.chip ms, log := s.log ++ [Ev.delay ms] }

/-- Source `LoRa_readReg`: select, send `address`, receive `w_length` bytes,
deselect.  The received buffer holds exactly `w_length` bytes of type
`uint8_t`.  (The two busy-waits on the SPI state follow blocking HAL calls.) -/
def LoRa_readReg (C : Chip σ) (s : Sys σ) (address : List Nat) (w_length : Nat) :
    List Nat × Sys σ :=
  let r := C.readReg s.chip address w_length
  let output := (List.range w_length).map (fun i => r.1.getD i 0 % 256)
  (output, { s with chip := r.2, log := s.log ++ [Ev.rx address output] })

/-- Source `LoRa_writeReg`: select, send `address`, send `values`, deselect. -/
def LoRa_writeReg (C : Chip σ) (s : Sys σ) (address : List Nat) (values : List Nat) : Sys σ :=
  { s with chip := C.writeReg s.chip address values, log := s.log ++ [Ev.tx address values] }

/-- Source `LoRa_read`: `data_addr = address & 0x7F`, one byte read. -/
def LoRa_read (C : Chip σ) (s : Sys σ) (address : Nat) : Nat × Sys σ :=
  let data_addr := (address % 256) &&& 0x7F
  let r := LoRa_readReg C s [data_addr] 1
  (r.1.getD 0 0, r.2)

/-- Source `LoRa_write`: `addr = address | 0x80`, one byte written. -/
def LoRa_write (C : Chip σ) (s : Sys σ) (address : Nat) (value : Nat) : Sys σ :=
  let addr := (address % 256) ||| 0x80
  let data := value % 256
  LoRa_writeReg C s [addr] [data]

/-- Source `LoRa_BurstWrite`: the same transaction as `LoRa_writeReg`, written
out inline in the source, with `length` payload bytes taken from `value`. -/
def LoRa_BurstWrite (C : Chip σ) (s : Sys σ) (address : Nat) (value : Nat → Nat) (length : Nat) :
    Sys σ :=
  let addr := (address % 256) ||| 0x80
  let payload := (List.range (length % 256)).map (fun i => value i % 256)
  { s with chip := C.writeReg s.chip [addr] payload, log := s.log ++ [Ev.tx [addr] payload] }

/-! ## Mode control -/

/-- Source `LoRa_gotoMode`: read-modify-write of the mode register; an argument that
is none of the five modes writes the register back unchanged and leaves
`current_mode` alone. -/
def LoRa_gotoMode (H : LoRa_h) (C : Chip σ) (s : Sys σ) (mode : Int) : Sys σ :=
  let r := LoRa_read C s H.RegOpMode
  let read := r.1
  let s := r.2
  if mode = H.SLEEP_MODE then
    LoRa_write C { s with lora := { s.lora with current_mode := H.SLEEP_MODE } }
      H.RegOpMode ((read &&& 0xF8) ||| 0x00)
  else if mode = H.STNBY_MODE then
    LoRa_write C { s with lora := { s.lora with current_mode := H.STNBY_MODE } }
      H.RegOpMode ((read &&& 0xF8) ||| 0x01)
  else if mode = H.TRANSMIT_MODE then
    LoRa_write C { s with lora := { s.lora with current_mode := H.TRANSMIT_MODE } }
      H.RegOpMode ((read &&& 0xF8) ||| 0x03)
  else if mode = H.RXCONTIN_MODE then
    LoRa_write C { s with lora := { s.lora with current_mode := H.RXCONTIN_MODE } }
      H.RegOpMode ((read &&& 0xF8) ||| 0x05)
  else if mode = H.RXSINGLE_MODE then
    LoRa_write C { s with lora := { s.lora with current_mode := H.RXSINGLE_MODE } }
      H.RegOpMode ((read &&& 0xF8) ||| 0x06)
  else
    LoRa_write C s H.RegOpMode read

/-! ## Modulation settings -/

/-- Source `LoRa_setLowDaraRateOptimization`: bit 3 of `RegModemConfig3` set or cleared
by read-modify-write, then 10 ms. -/
def LoRa_setLowDaraRateOptimization (H : LoRa_h) (C : Chip σ) (s : Sys σ) (value : Nat) : Sys σ :=
  let r := LoRa_read C s H.RegModemConfig3
  let read := r.1
  let data := if value % 256 ≠ 0 then read ||| 0x08 else read &&& 0xF7
  let s := LoRa_write C r.2 H.RegModemConfig3 data
  HAL_Delay C s 10

/-- The local table `BW` of `LoRa_setAutoLDO`.  The source gives it in kHz as
`double`s (7.8, 10.4, 15.6, 20.8, 31.25, 41.7, 62.5, 125, 250, 500); here the
same ten bandwidths are in Hz, which makes every entry an integer. -/
def BW : List Nat := [7800, 10400, 15600, 20800, 31250, 41700, 62500, 125000, 250000, 500000]

/-- The argument `LoRa_setAutoLDO` passes on:
`(long)((1 << spredingFactor) / ((double)BW[bandWidth])) > 16.0`, that is, the
quotient is truncated to an integer before it is compared with 16.
The quotient of the source is a `double`; for an index inside the table and a
shift below 31 it is positive, never an integer and at least 1/500 away from
one, far more than the rounding error of the division, so its truncation is
the floor of the exact quotient `2^sf / (BW / 1000)`, which is the integer
quotient computed here (`LoRa_setAutoLDO_trunc_exact`).  Outside that range the C
expression has no defined value (`BW` is indexed out of bounds, or `1 << n`
overflows): the model takes `ldoUndefined` there. -/
def LoRa_setAutoLDO_value (H : LoRa_h) (l : LoRa) : Nat :=
  if l.spredingFactor % 256 < 31 ∧ l.bandWidth % 256 < 10 then
    if (2 ^ (l.spredingFactor % 256) * 1000) / BW.getD (l.bandWidth % 256) 1 > 16 then 1 else 0
  else if H.ldoUndefined l.spredingFactor l.bandWidth then 1 else 0

/-- Source `LoRa_setAutoLDO`. -/
def LoRa_setAutoLDO (H : LoRa_h) (C : Chip σ) (s : Sys σ) : Sys σ :=
  LoRa_setLowDaraRateOptimization H C s (LoRa_setAutoLDO_value H s.lora)

/-! ## Frequency, spreading factor, power, over-current protection -/

/-- Two's-complement value of a 32-bit `int` result. -/
def wrapInt32 (x : Int) : Int := (x + 2147483648) % 4294967296 - 2147483648

/-- Source `LoRa_setFrequency`: `F = (freq * 524288) >> 5` in `int` arithmetic (the
product wraps to 32 bits, the shift is arithmetic), converted to `uint32_t`;
the three low bytes of `F` go to `RegFrMsb`, `RegFrMid`, `RegFrLsb`, each write
followed by 5 ms. -/
def LoRa_setFrequency (H : LoRa_h) (C : Chip σ) (s : Sys σ) (freq : Int) : Sys σ :=
  let F : Nat := ((wrapInt32 (freq * 524288) / 32) % 4294967296).toNat
  let s := LoRa_write C s H.RegFrMsb (F >>> 16)
  let s := HAL_Delay C s 5
  let s := LoRa_write C s H.RegFrMid (F >>> 8)
  let s := HAL_Delay C s 5
  let s := LoRa_write C s H.RegFrLsb (F >>> 0)
  HAL_Delay C s 5

/-- Source `LoRa_setSpreadingFactor`: clamp the argument to 7..12, replace the high
nibble of `RegModemConfig2`, then `LoRa_setAutoLDO`. -/
def LoRa_setSpreadingFactor (H : LoRa_h) (C : Chip σ) (s : Sys σ) (SF : Int) : Sys σ :=
  let SF := if SF > 12 then 12 else SF
  let SF := if SF < 7 then 7 else SF
  let r := LoRa_read C s H.RegModemConfig2
  let read := r.1
  let s := HAL_Delay C r.2 10
  let data := (SF.toNat <<< 4) + (read &&& 0x0F)
  let s := LoRa_write C s H.RegModemConfig2 data
  let s := HAL_Delay C s 10
  LoRa_setAutoLDO H C s

/-- Source `LoRa_setPower`. -/
def LoRa_setPower (H : LoRa_h) (C : Chip σ) (s : Sys σ) (power : Nat) : Sys σ :=
  let s := LoRa_write C s H.RegPaConfig (power % 256)
  HAL_Delay C s 10

/-- Source `LoRa_setOCP`: the `uint8_t` argument is clamped to 45..240, the trim is
`(current - 45) / 5` up to 120 and `(current + 30) / 10` above, and `1 << 5`
is added. -/
def LoRa_setOCP (H : LoRa_h) (C : Chip σ) (s : Sys σ) (current : Nat) : Sys σ :=
  let current := current % 256
  let OcpTrim := 0
  let current := if current < 45 then 45 else current
  let current := if current > 240 then 240 else current
  let OcpTrim :=
    if current ≤ 120 then ((current - 45) / 5) % 256
    else if current ≤ 240 then ((current + 30) / 10) % 256
    else OcpTrim
  let OcpTrim := (OcpTrim + (1 <<< 5)) % 256
  let s := LoRa_write C s H.RegOcp OcpTrim
  HAL_Delay C s 10

/-- Source `LoRa_setTOMsb_setCRCon`. -/
def LoRa_setTOMsb_setCRCon (H : LoRa_h) (C : Chip σ) (s : Sys σ) : Sys σ :=
  let r := LoRa_read C s H.RegModemConfig2
  let read := r.1
  let data := read ||| 0x07
  let s := LoRa_write C r.2 H.RegModemConfig2 data
  HAL_Delay C s 10

/-- Source `LoRa_setSyncWord`. -/
def LoRa_setSyncWord (H : LoRa_h) (C : Chip σ) (s : Sys σ) (syncword : Nat) : Sys σ :=
  let s := LoRa_write C s H.RegSyncWord (syncword % 256)
  HAL_Delay C s 10

/-- Source `LoRa_isvalid`. -/
def LoRa_isvalid (_l : LoRa) : Nat := 1

/-! ## Transmit -/

/-- The `while (1)` loop of `LoRa_transmit`, one iteration per unit of `fuel`;
`timeout` is the `uint16_t` counter, so `--timeout` wraps from 0 to 65535.
The result is `none` only when the fuel is used up before the loop returns. -/
def LoRa_transmit_loop (H : LoRa_h) (C : Chip σ) (mode : Int) :
    Nat → Sys σ → Nat → Option (Nat × Sys σ)
  | 0, _, _ => none
  | fuel + 1, s, timeout =>
    let r := LoRa_read C s H.RegIrqFlags
    let read := r.1
    let s := r.2
    if read &&& 0x08 ≠ 0 then
      let s := LoRa_write C s H.RegIrqFlags 0xFF
      let s := LoRa_gotoMode H C s mode
      some (1, s)
    else
      let timeout := (timeout + 65535) % 65536
      if timeout = 0 then
        let s := LoRa_gotoMode H C s mode
        some (0, s)
      else
        let s := HAL_Delay C s 1
        LoRa_transmit_loop H C mode fuel s timeout

/-- Source `LoRa_transmit`, with the polling loop run for at most `fuel` iterations.
`data` is the memory behind the payload pointer; `length` is a `uint8_t` and
`timeout` a `uint16_t` parameter. -/
def LoRa_transmit (H : LoRa_h) (C : Chip σ) (fuel : Nat) (s : Sys σ)
    (data : Nat → Nat) (length : Nat) (timeout : Nat) : Option (Nat × Sys σ) :=
  let length := length % 256
  let timeout := timeout % 65536
  let mode := s.lora.current_mode
  let s := LoRa_gotoMode H C s H.STNBY_MODE
  let r := LoRa_read C s H.RegFiFoTxBaseAddr
  let read := r.1
  let s := LoRa_write C r.2 H.RegFiFoAddPtr read
  let s := LoRa_write C s H.RegPayloadLength length
  let s := LoRa_BurstWrite C s H.RegFiFo data length
  let s := LoRa_gotoMode H C s H.TRANSMIT_MODE
  LoRa_transmit_loop H C mode fuel s timeout

/-! ## Receive -/

/-- Source `LoRa_startReceiving`. -/
def LoRa_startReceiving (H : LoRa_h) (C : Chip σ) (s : Sys σ) : Sys σ :=
  LoRa_gotoMode H C s H.RXCONTIN_MODE

/-- The copy loop of `LoRa_receive`, `for (i = 0; i < min; i++) data[i] = LoRa_read(RegFiFo)`,
with `n = min - i` iterations left. -/
def LoRa_receive_copy (H : LoRa_h) (C : Chip σ) :
    Nat → Nat → Sys σ → (Nat → Nat) → (Nat → Nat) × Sys σ
  | 0, _, s, data => (data, s)
  | n + 1, i, s, data =>
    let r := LoRa_read C s H.RegFiFo
    LoRa_receive_copy H C n (i + 1) r.2 (Function.update data i r.1)

/-- Source `LoRa_receive`.  The caller's buffer is the memory `data` indexed from the
pointer passed in; the result is the returned count, the buffer and the state. -/
def LoRa_receive (H : LoRa_h) (C : Chip σ) (s : Sys σ) (data : Nat → Nat) (length : Nat) :
    Nat × (Nat → Nat) × Sys σ :=
  let length := length % 256
  let data : Nat → Nat := fun i => if i < length then 0 else data i
  let s := LoRa_gotoMode H C s H.STNBY_MODE
  let r := LoRa_read C s H.RegIrqFlags
  let read := r.1
  let s := r.2
  if read &&& 0x40 ≠ 0 then
    let s := LoRa_write C s H.RegIrqFlags 0xFF
    let r := LoRa_read C s H.RegRxNbBytes
    let number_of_bytes := r.1
    let r := LoRa_read C r.2 H.RegFiFoRxCurrentAddr
    let read := r.1
    let s := LoRa_write C r.2 H.RegFiFoAddPtr read
    let min := if length ≥ number_of_bytes then number_of_bytes else length
    let c := LoRa_receive_copy H C min 0 s data
    let s := LoRa_gotoMode H C c.2 H.RXCONTIN_MODE
    (min, c.1, s)
  else
    let s := LoRa_gotoMode H C s H.RXCONTIN_MODE
    (0, data, s)

/-- Source `LoRa_getRSSI`. -/
def LoRa_getRSSI (H : LoRa_h) (C : Chip σ) (s : Sys σ) : Int × Sys σ :=
  let r := LoRa_read C s H.RegPktRssiValue
  (-164 + (r.1 : Int), r.2)

/-! ## Initialisation -/

/-- Source `LoRa_init`. -/
def LoRa_init (H : LoRa_h) (C : Chip σ) (s : Sys σ) : Nat × Sys σ :=
  if LoRa_isvalid s.lora ≠ 0 then
    let s := LoRa_gotoMode H C s H.SLEEP_MODE
    let s := HAL_Delay C s 10
    let r := LoRa_read C s H.RegOpMode
    let read := r.1
    let s := HAL_Delay C r.2 10
    let data := read ||| 0x80
    let s := LoRa_write C s H.RegOpMode data
    let s := HAL_Delay C s 100
    let s := LoRa_setFrequency H C s s.lora.frequency
    let s := LoRa_setPower H C s s.lora.power
    let s := LoRa_setOCP H C s s.lora.overCurrentProtection
    let s := LoRa_write C s H.RegLna 0x23
    let s := LoRa_setTOMsb_setCRCon H C s
    let s := LoRa_setSpreadingFactor H C s s.lora.spredingFactor
    let s := LoRa_write C s H.RegSymbTimeoutL 0xFF
    let data := ((s.lora.bandWidth <<< 4) + (s.lora.crcRate <<< 1)) % 256
    let s := LoRa_write C s H.RegModemConfig1 data
    let s := LoRa_setAutoLDO H C s
    let s := LoRa_write C s H.RegPreambleMsb ((s.lora.preamble % 65536) >>> 8)
    let s := LoRa_write C s H.RegPreambleLsb ((s.lora.preamble % 65536) >>> 0)
    let r := LoRa_read C s H.RegDioMapping1
    let read := r.1
    let data := read ||| 0x3F
    let s := LoRa_write C r.2 H.RegDioMapping1 data
    let s := LoRa_gotoMode H C s H.STNBY_MODE
    let s := { s with lora := { s.lora with current_mode := H.STNBY_MODE } }
    let s := HAL_Delay C s 10
    let r := LoRa_read C s H.RegVersion
    let read := r.1
    if read = 0x12 then (H.LORA_OK, r.2) else (H.LORA_NOT_FOUND, r.2)
  else
    (H.LORA_UNAVAILABLE, s)

/-! ## Concrete header and chips, for evaluating the driver -/

/-- One possible header, used only to evaluate the driver on concrete inputs:
the register addresses of the SX127x LoRa register map, mode macros equal to
the hardware codes `LoRa_gotoMode` writes, and 200/404/503 as status codes.
Statements quantified over `LoRa_h` do not depend on it. -/
def sx127x : LoRa_h where
  SLEEP_MODE := 0
  STNBY_MODE := 1
  TRANSMIT_MODE := 3
  RXCONTIN_MODE := 5
  RXSINGLE_MODE := 6
  RegFiFo := 0x00
  RegOpMode := 0x01
  RegFrMsb := 0x06
  RegFrMid := 0x07
  RegFrLsb := 0x08
  RegPaConfig := 0x09
  RegOcp := 0x0B
  RegLna := 0x0C
  RegFiFoAddPtr := 0x0D
  RegFiFoTxBaseAddr := 0x0E
  RegFiFoRxCurrentAddr := 0x10
  RegIrqFlags := 0x12
  RegRxNbBytes := 0x13
  RegPktRssiValue := 0x1A
  RegModemConfig1 := 0x1D
  RegModemConfig2 := 0x1E
  RegModemConfig3 := 0x26
  RegSymbTimeoutL := 0x1F
  RegPreambleMsb := 0x20
  RegPreambleLsb := 0x21
  RegPayloadLength := 0x22
  RegDioMapping1 := 0x40
  RegSyncWord := 0x39
  RegVersion := 0x42
  LORA_OK := 200
  LORA_NOT_FOUND := 404
  LORA_UNAVAILABLE := 503
  ldoUndefined := fun _ _ => false

/-- A chip without state that answers every read of register `a` with `f a`. -/
def fixedChip (f : Nat → Nat) : Chip Unit where
  readReg := fun _ address w_length => (List.replicate w_length (f (address.headD 0)), ())
  writeReg := fun _ _ _ => ()
  delay := fun _ _ => ()

/-- A `LoRa` object with the settings the source documents as defaults (433 MHz,
spreading factor 7, table index 7 = 125 kHz, coding rate code 1, power code
0xFF, 100 mA, preamble 8) and a given `current_mode`, which `newLoRa` does not
assign. -/
def cfg433 (current_mode : Int) : LoRa where
  current_mode := current_mode
  frequency := 433
  spredingFactor := 7
  bandWidth := 7
  crcRate := 1
  power := 0xFF
  overCurrentProtection := 100
  preamble := 8

/-- The state before any transaction: object `l`, stateless chip, empty log. -/
def boot (l : LoRa) : Sys Unit := { lora := l, chip := (), log := [] }

/-! ## Reading the log

From here on the definitions are not translations of source functions: they
are the vocabulary of the statements below. -/

/-- The bytes received by the read transactions on register `a` in a log, in order. -/
def readVals (a : Nat) : List Ev → List Nat
  | [] => []
  | Ev.rx addr out :: l =>
    if addr = [a % 256 &&& 0x7F] then out ++ readVals a l else readVals a l
  | _ :: l => readVals a l

/-- Total of the `HAL_Delay` milliseconds in a log. -/
def delayMs : List Ev → Nat
  | [] => 0
  | Ev.delay ms :: l => ms + delayMs l
  | _ :: l => delayMs l

/-- The log of `k` unsuccessful polls of register address `a`, each followed by the
1 ms delay. -/
def pollEvs (a : Nat) : List Nat → List Ev
  | [] => []
  | v :: vs => Ev.rx [a] [v] :: Ev.delay 1 :: pollEvs a vs

/-- The five modes `LoRa_gotoMode` knows. -/
def isDriverMode (H : LoRa_h) (mode : Int) : Prop :=
  mode = H.SLEEP_MODE ∨ mode = H.STNBY_MODE ∨ mode = H.TRANSMIT_MODE ∨
    mode = H.RXCONTIN_MODE ∨ mode = H.RXSINGLE_MODE

instance (H : LoRa_h) (mode : Int) : Decidable (isDriverMode H mode) := by
  unfold isDriverMode; infer_instance

/-! ## What `LoRa_gotoMode` computes, and the set-up phase of `LoRa_transmit` -/

/-- The value `LoRa_gotoMode` leaves in `current_mode`, as a function of the value before
and of the argument. -/
def modeAfter (H : LoRa_h) (cur mode : Int) : Int :=
  if mode = H.SLEEP_MODE then H.SLEEP_MODE
  else if mode = H.STNBY_MODE then H.STNBY_MODE
  else if mode = H.TRANSMIT_MODE then H.TRANSMIT_MODE
  else if mode = H.RXCONTIN_MODE then H.RXCONTIN_MODE
  else if mode = H.RXSINGLE_MODE then H.RXSINGLE_MODE
  else cur

/-- The byte `LoRa_gotoMode` writes back, as a function of the argument and of the byte
read. -/
def opModeByte (H : LoRa_h) (mode : Int) (read : Nat) : Nat :=
  if mode = H.SLEEP_MODE then (read &&& 0xF8) ||| 0x00
  else if mode = H.STNBY_MODE then (read &&& 0xF8) ||| 0x01
  else if mode = H.TRANSMIT_MODE then (read &&& 0xF8) ||| 0x03
  else if mode = H.RXCONTIN_MODE then (read &&& 0xF8) ||| 0x05
  else if mode = H.RXSINGLE_MODE then (read &&& 0xF8) ||| 0x06
  else read

/-- The state in which `LoRa_transmit` enters its polling loop. -/
def LoRa_transmit_setup (H : LoRa_h) (C : Chip σ) (s : Sys σ) (data : Nat → Nat) (length : Nat) :
    Sys σ :=
  LoRa_gotoMode H C
    (LoRa_BurstWrite C
      (LoRa_write C
        (LoRa_write C (LoRa_read C (LoRa_gotoMode H C s H.STNBY_MODE) H.RegFiFoTxBaseAddr).2
          H.RegFiFoAddPtr (LoRa_read C (LoRa_gotoMode H C s H.STNBY_MODE) H.RegFiFoTxBaseAddr).1)
        H.RegPayloadLength (length % 256))
      H.RegFiFo data (length % 256))
    H.TRANSMIT_MODE

/-! ## Quantities in the words of the specification -/

/-- The frequency word in the words of the specification: `floor(freqMHz * 2^19 / 32)`,
the product taken modulo `2^32`. -/
def frequencyWord (freqMHz : Int) : Nat := ((freqMHz * 2 ^ 19) % 2 ^ 32 / 32).toNat

/-- The trim value in the words of the specification: the input clamped to 45..240,
then `(v - 45) / 5` up to 120 and `(v + 30) / 10` above. -/
def ocpTrim (mA : Nat) : Nat :=
  if max 45 (min 240 mA) ≤ 120 then (max 45 (min 240 mA) - 45) / 5
  else (max 45 (min 240 mA) + 30) / 10

/-- The bandwidth table in kHz, as exact rationals. -/
def bandwidthKHz : List ℚ := [7.8, 10.4, 15.6, 20.8, 31.25, 41.7, 62.5, 125, 250, 500]

/-- Symbol duration in milliseconds in the words of the specification:
`2^sf / bandwidthKHz[bandwidthIndex]`. -/
def symbolDurationMs (sf bandwidthIndex : Nat) : ℚ := 2 ^ sf / bandwidthKHz.getD bandwidthIndex 1

/-! ## The chip as a register file -/

/-- A chip that is a file of 128 registers, each returning the last value written:
the low seven bits of the address byte select the register, a read transaction
returns its content, a write transaction leaves its last payload byte in it
(none, when the payload is empty), and time changes nothing. -/
def regFile : Chip (Nat → Nat) where
  readReg := fun regs address w_length =>
    (List.replicate w_length (regs (address.headD 0 % 128)), regs)
  writeReg := fun regs address values =>
    match values.getLast? with
    | none => regs
    | some v => Function.update regs (address.headD 0 % 128) v
  delay := fun regs _ => regs

/-- The state before any transaction on a register file with contents `regs`. -/
def bootRegs (l : LoRa) (regs : Nat → Nat) : Sys (Nat → Nat) :=
  { lora := l, chip := regs, log := [] }

/-- The hardware code of a cached mode: the low three bits `LoRa_gotoMode` writes for
it; none for a value that is not one of the five modes. -/
def hwCode (H : LoRa_h) (mode : Int) : Option Nat :=
  if mode = H.SLEEP_MODE then some 0
  else if mode = H.STNBY_MODE then some 1
  else if mode = H.TRANSMIT_MODE then some 3
  else if mode = H.RXCONTIN_MODE then some 5
  else if mode = H.RXSINGLE_MODE then some 6
  else none

/-- The invariant of the mode cache, on a register file: the hardware code of
`current_mode` is the low three bits of the mode register. -/
def modeInv (H : LoRa_h) (s : Sys (Nat → Nat)) : Prop :=
  hwCode H s.lora.current_mode = some (s.chip (H.RegOpMode % 128) &&& 0x07)

instance (H : LoRa_h) (s : Sys (Nat → Nat)) : Decidable (modeInv H s) := by
  unfold modeInv; infer_instance

/-- Register `k` of a register file is none of the registers addressed by `regs`. -/
def apartFrom (k : Nat) (regs : List Nat) : Prop := ∀ a ∈ regs, k % 128 ≠ a % 128

instance (k : Nat) (regs : List Nat) : Decidable (apartFrom k regs) := by
  unfold apartFrom; infer_instance

/-- The registers written by the configuration setters. -/
def setterRegs (H : LoRa_h) : List Nat :=
  [H.RegFrMsb, H.RegFrMid, H.RegFrLsb, H.RegPaConfig, H.RegOcp, H.RegModemConfig2,
    H.RegModemConfig3, H.RegSyncWord]

/-- The registers `LoRa_init` writes between its two mode switches, other than
`RegModemConfig2`. -/
def initRegs (H : LoRa_h) : List Nat :=
  [H.RegFrMsb, H.RegFrMid, H.RegFrLsb, H.RegPaConfig, H.RegOcp, H.RegLna, H.RegModemConfig3,
    H.RegSymbTimeoutL, H.RegModemConfig1, H.RegPreambleMsb, H.RegPreambleLsb, H.RegDioMapping1]

/-! ## The phases of `LoRa_init`

`LoRa_init` is the composition of the five phases below followed by the read
of the version register (`LoRa_init_eq`). -/

/-- First phase of `LoRa_init`: sleep mode, then the LoRa bit of the mode register. -/
def LoRa_init_enter (H : LoRa_h) (C : Chip σ) (s : Sys σ) : Sys σ :=
  let s := LoRa_gotoMode H C s H.SLEEP_MODE
  let s := HAL_Delay C s 10
  let r := LoRa_read C s H.RegOpMode
  let s := HAL_Delay C r.2 10
  let s := LoRa_write C s H.RegOpMode (r.1 ||| 0x80)
  HAL_Delay C s 100

/-- Second phase of `LoRa_init`: frequency, power, over-current protection, LNA gain. -/
def LoRa_init_radio (H : LoRa_h) (C : Chip σ) (s : Sys σ) : Sys σ :=
  let s := LoRa_setFrequency H C s s.lora.frequency
  let s := LoRa_setPower H C s s.lora.power
  let s := LoRa_setOCP H C s s.lora.overCurrentProtection
  LoRa_write C s H.RegLna 0x23

/-- Third phase of `LoRa_init`: CRC and timeout bits, then the spreading factor. -/
def LoRa_init_modem (H : LoRa_h) (C : Chip σ) (s : Sys σ) : Sys σ :=
  let s := LoRa_setTOMsb_setCRCon H C s
  LoRa_setSpreadingFactor H C s s.lora.spredingFactor

/-- Fourth phase of `LoRa_init`: timeout low byte, bandwidth and coding rate, low data
rate optimisation, preamble, DIO mapping. -/
def LoRa_init_framing (H : LoRa_h) (C : Chip σ) (s : Sys σ) : Sys σ :=
  let s := LoRa_write C s H.RegSymbTimeoutL 0xFF
  let s := LoRa_write C s H.RegModemConfig1
    (((s.lora.bandWidth <<< 4) + (s.lora.crcRate <<< 1)) % 256)
  let s := LoRa_setAutoLDO H C s
  let s := LoRa_write C s H.RegPreambleMsb ((s.lora.preamble % 65536) >>> 8)
  let s := LoRa_write C s H.RegPreambleLsb ((s.lora.preamble % 65536) >>> 0)
  let r := LoRa_read C s H.RegDioMapping1
  LoRa_write C r.2 H.RegDioMapping1 (r.1 ||| 0x3F)

/-- Fifth phase of `LoRa_init`: standby mode. -/
def LoRa_init_leave (H : LoRa_h) (C : Chip σ) (s : Sys σ) : Sys σ :=
  let s := LoRa_gotoMode H C s H.STNBY_MODE
  let s := { s with lora := { s.lora with current_mode := H.STNBY_MODE } }
  HAL_Delay C s 10

/-! ## What the read-modify-write setters compute -/

/-- The byte `LoRa_setLowDaraRateOptimization` writes back, as a function of its argument
and of the byte read. -/
def ldoByte (value read : Nat) : Nat :=
  (if value % 256 ≠ 0 then read ||| 0x08 else read &&& 0xF7) % 256

/-- The byte `LoRa_setSpreadingFactor` writes back, as a function of the clamped
spreading factor and of the byte read. -/
def sfByte (c read : Nat) : Nat := ((c <<< 4) + (read &&& 0x0F)) % 256

/-- The state in which `LoRa_setSpreadingFactor` calls `LoRa_setAutoLDO`: the nibble has been
written to `RegModemConfig2` and the second 10 ms have passed. -/
def LoRa_setSpreadingFactor_nibble (H : LoRa_h) (C : Chip σ) (s : Sys σ) (SF : Int) : Sys σ :=
  let SF := if SF > 12 then 12 else SF
  let SF := if SF < 7 then 7 else SF
  let r := LoRa_read C s H.RegModemConfig2
  let read := r.1
  let s := HAL_Delay C r.2 10
  let data := (SF.toNat <<< 4) + (read &&& 0x0F)
  let s := LoRa_write C s H.RegModemConfig2 data
  HAL_Delay C s 10

/-! ## Basic facts about the transport primitives -/

@[simp] theorem HAL_Delay_log (C : Chip σ) (s : Sys σ) (ms : Nat) :
    (HAL_Delay C s ms).log = s.log ++ [Ev.delay ms] := rfl

@[simp] theorem HAL_Delay_lora (C : Chip σ) (s : Sys σ) (ms : Nat) :
    (HAL_Delay C s ms).lora = s.lora := rfl

@[simp] theorem LoRa_read_log (C : Chip σ) (s : Sys σ) (a : Nat) :
    (LoRa_read C s a).2.log = s.log ++ [Ev.rx [a % 256 &&& 0x7F] [(LoRa_read C s a).1]] := rfl

@[simp] theorem LoRa_read_lora (C : Chip σ) (s : Sys σ) (a : Nat) :
    (LoRa_read C s a).2.lora = s.lora := rfl

theorem LoRa_read_lt (C : Chip σ) (s : Sys σ) (a : Nat) : (LoRa_read C s a).1 < 256 := by
  have h : (LoRa_read C s a).1 = (C.readReg s.chip [a % 256 &&& 0x7F] 1).1.getD 0 0 % 256 := rfl
  rw [h]
  exact Nat.mod_lt _ (by norm_num)

theorem LoRa_read_fixedChip (f : Nat → Nat) (s : Sys Unit) (a : Nat) :
    (LoRa_read (fixedChip f) s a).1 = f (a % 256 &&& 0x7F) % 256 := by
  simp [LoRa_read, LoRa_readReg, fixedChip, List.range_succ]

@[simp] theorem LoRa_write_log (C : Chip σ) (s : Sys σ) (a v : Nat) :
    (LoRa_write C s a v).log = s.log ++ [Ev.tx [a % 256 ||| 0x80] [v % 256]] := rfl

@[simp] theorem LoRa_write_lora (C : Chip σ) (s : Sys σ) (a v : Nat) :
    (LoRa_write C s a v).lora = s.lora := rfl

@[simp] theorem LoRa_BurstWrite_lora (C : Chip σ) (s : Sys σ) (a : Nat) (d : Nat → Nat) (n : Nat) :
    (LoRa_BurstWrite C s a d n).lora = s.lora := rfl

/-! ## Mode control: effect on the cached mode and on the log -/

theorem LoRa_gotoMode_lora (H : LoRa_h) (C : Chip σ) (s : Sys σ) (mode : Int) :
    (LoRa_gotoMode H C s mode).lora =
      { s.lora with current_mode := modeAfter H s.lora.current_mode mode } := by
  unfold LoRa_gotoMode modeAfter
  split_ifs <;> simp

theorem LoRa_gotoMode_log (H : LoRa_h) (C : Chip σ) (s : Sys σ) (mode : Int) :
    (LoRa_gotoMode H C s mode).log =
      s.log ++ [Ev.rx [H.RegOpMode % 256 &&& 0x7F] [(LoRa_read C s H.RegOpMode).1],
        Ev.tx [H.RegOpMode % 256 ||| 0x80]
          [opModeByte H mode (LoRa_read C s H.RegOpMode).1 % 256]] := by
  unfold LoRa_gotoMode opModeByte
  split_ifs <;> simp

theorem modeAfter_of_isDriverMode (H : LoRa_h) (cur mode : Int) (h : isDriverMode H mode) :
    modeAfter H cur mode = mode := by
  unfold modeAfter
  unfold isDriverMode at h
  split_ifs with h1 h2 h3 h4 h5
  · exact h1.symm
  · exact h2.symm
  · exact h3.symm
  · exact h4.symm
  · exact h5.symm
  · rcases h with h | h | h | h | h <;> contradiction

/-! ## Initialisation: the status code -/

/-- C1.  For every header, chip, chip state and `LoRa` object: the validity guard
`LoRa_isvalid` is 1; the last transaction of `LoRa_init` is a read of the version
register, and the status returned is `LORA_OK` when the byte read is 0x12 and
`LORA_NOT_FOUND` for every other byte; so, the three status macros being distinct,
`LORA_UNAVAILABLE` is never returned. -/
theorem LoRa_init_status (H : LoRa_h) (C : Chip σ) (s : Sys σ) :
    LoRa_isvalid s.lora = 1 ∧
    ∃ (before : List Ev) (version : Nat),
      (LoRa_init H C s).2.log = before ++ [Ev.rx [H.RegVersion % 256 &&& 0x7F] [version]] ∧
      (LoRa_init H C s).1 = (if version = 0x12 then H.LORA_OK else H.LORA_NOT_FOUND) ∧
      (H.LORA_UNAVAILABLE ≠ H.LORA_OK → H.LORA_UNAVAILABLE ≠ H.LORA_NOT_FOUND →
        (LoRa_init H C s).1 ≠ H.LORA_UNAVAILABLE) := by
  refine ⟨rfl, ?_⟩
  obtain ⟨sN, h⟩ : ∃ sN : Sys σ, LoRa_init H C s =
      if (LoRa_read C sN H.RegVersion).1 = 0x12 then (H.LORA_OK, (LoRa_read C sN H.RegVersion).2)
      else (H.LORA_NOT_FOUND, (LoRa_read C sN H.RegVersion).2) := ⟨_, rfl⟩
  rw [h]
  refine ⟨sN.log, (LoRa_read C sN H.RegVersion).1, ?_, ?_, ?_⟩
  · split_ifs <;> exact LoRa_read_log C sN H.RegVersion
  · split_ifs <;> rfl
  · intro h1 h2
    split_ifs
    · exact Ne.symm h1
    · exact Ne.symm h2

/-- C1, evaluated: with the documented default settings, a chip that reports identity
0x12 gives `LORA_OK` (200 in `sx127x`), one that reports 0x13 gives `LORA_NOT_FOUND`
(404), and neither gives `LORA_UNAVAILABLE` (503). -/
theorem LoRa_init_status_witness :
    (LoRa_init sx127x (fixedChip fun a => if a = 0x42 then 0x12 else 0) (boot (cfg433 0))).1 = 200 ∧
    (LoRa_init sx127x (fixedChip fun a => if a = 0x42 then 0x13 else 0) (boot (cfg433 0))).1 = 404 ∧
    (LoRa_init sx127x (fixedChip fun a => if a = 0x42 then 0x12 else 0) (boot (cfg433 0))).1 ≠ 503 :=
  ⟨by decide, by decide,
    (LoRa_init_status sx127x (fixedChip fun a => if a = 0x42 then 0x12 else 0)
      (boot (cfg433 0))).2.choose_spec.choose_spec.2.2 (by decide) (by decide)⟩

/-! ## Facts about logs -/

theorem readVals_append (a : Nat) (l₁ l₂ : List Ev) :
    readVals a (l₁ ++ l₂) = readVals a l₁ ++ readVals a l₂ := by
  induction l₁ with
  | nil => rfl
  | cons e l ih =>
    cases e with
    | rx addr out =>
      simp only [List.cons_append, readVals]
      split_ifs <;> simp [ih]
    | tx addr vals => simpa [readVals] using ih
    | delay ms => simpa [readVals] using ih

theorem delayMs_append (l₁ l₂ : List Ev) : delayMs (l₁ ++ l₂) = delayMs l₁ + delayMs l₂ := by
  induction l₁ with
  | nil => simp [delayMs]
  | cons e l ih =>
    cases e with
    | rx addr out => simpa [delayMs] using ih
    | tx addr vals => simpa [delayMs] using ih
    | delay ms => simp [delayMs, ih, Nat.add_assoc]

theorem readVals_pollEvs (a : Nat) (vs : List Nat) :
    readVals a (pollEvs (a % 256 &&& 0x7F) vs) = vs := by
  induction vs with
  | nil => rfl
  | cons v vs ih => simp [pollEvs, readVals, ih]

theorem readVals_pollEvs_ne (a b : Nat) (vs : List Nat) (h : b ≠ a % 256 &&& 0x7F) :
    readVals a (pollEvs b vs) = [] := by
  induction vs with
  | nil => rfl
  | cons v vs ih => simp [pollEvs, readVals, ih, h]

theorem delayMs_pollEvs (a : Nat) (vs : List Nat) : delayMs (pollEvs a vs) = vs.length := by
  induction vs with
  | nil => rfl
  | cons v vs ih => simp [pollEvs, delayMs, ih, Nat.add_comm]

theorem pollEvs_append (a : Nat) (vs ws : List Nat) :
    pollEvs a (vs ++ ws) = pollEvs a vs ++ pollEvs a ws := by
  induction vs with
  | nil => rfl
  | cons v vs ih => simp [pollEvs, ih]

/-! ## Transmit: the polling loop -/

theorem LoRa_transmit_loop_succ (H : LoRa_h) (C : Chip σ) (mode : Int) (fuel : Nat) (s : Sys σ)
    (timeout : Nat) :
    LoRa_transmit_loop H C mode (fuel + 1) s timeout =
      if (LoRa_read C s H.RegIrqFlags).1 &&& 0x08 ≠ 0 then
        some (1, LoRa_gotoMode H C
          (LoRa_write C (LoRa_read C s H.RegIrqFlags).2 H.RegIrqFlags 0xFF) mode)
      else if (timeout + 65535) % 65536 = 0 then
        some (0, LoRa_gotoMode H C (LoRa_read C s H.RegIrqFlags).2 mode)
      else
        LoRa_transmit_loop H C mode fuel (HAL_Delay C (LoRa_read C s H.RegIrqFlags).2 1)
          ((timeout + 65535) % 65536) := rfl

/-- The polling loop, run with enough fuel, returns.  Before its last poll it has
made `vs.length` unsuccessful polls, each followed by 1 ms, and nothing else; the
last poll either sees transmit-done (flags cleared, mode restored, result 1) or is
the one on which the counter reaches 0 (mode restored, result 0). -/
theorem LoRa_transmit_loop_spec (H : LoRa_h) (C : Chip σ) (mode : Int) :
    ∀ (fuel : Nat) (s : Sys σ) (timeout : Nat), timeout < 65536 →
      (timeout + 65535) % 65536 < fuel →
      ∃ (vs : List Nat) (sp : Sys σ),
        vs.length ≤ (timeout + 65535) % 65536 ∧ (∀ x ∈ vs, x &&& 0x08 = 0) ∧
        sp.lora = s.lora ∧
        sp.log = s.log ++ pollEvs (H.RegIrqFlags % 256 &&& 0x7F) vs ∧
        (((LoRa_read C sp H.RegIrqFlags).1 &&& 0x08 ≠ 0 ∧
            LoRa_transmit_loop H C mode fuel s timeout =
              some (1, LoRa_gotoMode H C
                (LoRa_write C (LoRa_read C sp H.RegIrqFlags).2 H.RegIrqFlags 0xFF) mode)) ∨
          ((LoRa_read C sp H.RegIrqFlags).1 &&& 0x08 = 0 ∧
            vs.length = (timeout + 65535) % 65536 ∧
            LoRa_transmit_loop H C mode fuel s timeout =
              some (0, LoRa_gotoMode H C (LoRa_read C sp H.RegIrqFlags).2 mode))) := by
  intro fuel
  induction fuel with
  | zero => intro s timeout _ h; exact absurd h (Nat.not_lt_zero _)
  | succ fuel ih =>
    intro s timeout ht hf
    rw [LoRa_transmit_loop_succ]
    by_cases hdone : (LoRa_read C s H.RegIrqFlags).1 &&& 0x08 ≠ 0
    · refine ⟨[], s, Nat.zero_le _, by simp, rfl, by simp [pollEvs], Or.inl ⟨hdone, ?_⟩⟩
      rw [if_pos hdone]
    · rw [if_neg hdone]
      have hclear : (LoRa_read C s H.RegIrqFlags).1 &&& 0x08 = 0 := not_not.mp hdone
      by_cases hz : (timeout + 65535) % 65536 = 0
      · refine ⟨[], s, Nat.zero_le _, by simp, rfl, by simp [pollEvs], Or.inr ⟨hclear, ?_, ?_⟩⟩
        · simp [hz]
        · rw [if_pos hz]
      · rw [if_neg hz]
        have h1 : (timeout + 65535) % 65536 < 65536 := Nat.mod_lt _ (by norm_num)
        have h2 : ((timeout + 65535) % 65536 + 65535) % 65536 + 1 = (timeout + 65535) % 65536 := by
          omega
        obtain ⟨vs, sp, hlen, hvs, hlora, hlog, hres⟩ :=
          ih (HAL_Delay C (LoRa_read C s H.RegIrqFlags).2 1) ((timeout + 65535) % 65536) h1
            (by omega)
        refine ⟨(LoRa_read C s H.RegIrqFlags).1 :: vs, sp, ?_, ?_, ?_, ?_, ?_⟩
        · simp only [List.length_cons]; omega
        · intro x hx
          rcases List.mem_cons.mp hx with rfl | hx
          · exact hclear
          · exact hvs x hx
        · rw [hlora]; rfl
        · rw [hlog]; simp [pollEvs]
        · rcases hres with ⟨ha, hb⟩ | ⟨ha, hb, hc⟩
          · exact Or.inl ⟨ha, hb⟩
          · refine Or.inr ⟨ha, ?_, hc⟩
            simp only [List.length_cons]; omega

theorem LoRa_transmit_eq (H : LoRa_h) (C : Chip σ) (fuel : Nat) (s : Sys σ) (data : Nat → Nat)
    (length timeout : Nat) :
    LoRa_transmit H C fuel s data length timeout =
      LoRa_transmit_loop H C s.lora.current_mode fuel (LoRa_transmit_setup H C s data length)
        (timeout % 65536) := rfl

theorem LoRa_transmit_setup_lora (H : LoRa_h) (C : Chip σ) (s : Sys σ) (data : Nat → Nat)
    (length : Nat) :
    (LoRa_transmit_setup H C s data length).lora =
      { s.lora with current_mode := H.TRANSMIT_MODE } := by
  unfold LoRa_transmit_setup
  rw [LoRa_gotoMode_lora, modeAfter_of_isDriverMode H _ _ (Or.inr (Or.inr (Or.inl rfl)))]
  simp [LoRa_gotoMode_lora]

/-- The transactions of the set-up phase: none of them reads a register other than
the mode register and the TX base address register. -/
theorem LoRa_transmit_setup_log (H : LoRa_h) (C : Chip σ) (s : Sys σ) (data : Nat → Nat)
    (length : Nat) :
    ∃ m₁ w₁ b p m₂ w₂,
      (LoRa_transmit_setup H C s data length).log =
        s.log ++ [Ev.rx [H.RegOpMode % 256 &&& 0x7F] [m₁],
          Ev.tx [H.RegOpMode % 256 ||| 0x80] [w₁],
          Ev.rx [H.RegFiFoTxBaseAddr % 256 &&& 0x7F] [b],
          Ev.tx [H.RegFiFoAddPtr % 256 ||| 0x80] [b % 256],
          Ev.tx [H.RegPayloadLength % 256 ||| 0x80] [length % 256],
          Ev.tx [H.RegFiFo % 256 ||| 0x80] p,
          Ev.rx [H.RegOpMode % 256 &&& 0x7F] [m₂],
          Ev.tx [H.RegOpMode % 256 ||| 0x80] [w₂]] := by
  unfold LoRa_transmit_setup
  rw [LoRa_gotoMode_log]
  simp only [LoRa_BurstWrite, LoRa_write_log, LoRa_read_log, LoRa_gotoMode_log,
    List.append_assoc, List.cons_append, List.nil_append, Nat.mod_mod]
  exact ⟨_, _, _, _, _, _, rfl⟩

/-! ## Transmit: mode restoration, and the number of polls -/

/-- C2.  For every value of `current_mode` before the call (the cached mode is one of
the five modes: these are the values of the data model and the only ones the
driver ever stores, see `LoRa_init_isDriverMode` and `LoRa_gotoMode_isDriverMode`),
every payload, length and timeout and every chip, `LoRa_transmit` returns (65536
loop iterations always suffice), with result 0 or 1, and on the success path and
on the timeout path alike `current_mode` is again the value it had before the
call. -/
theorem LoRa_transmit_restores_mode (H : LoRa_h) (C : Chip σ) (fuel : Nat) (s : Sys σ)
    (data : Nat → Nat) (length timeout : Nat)
    (hm : isDriverMode H s.lora.current_mode) (hf : 65536 ≤ fuel) :
    ∃ ret s', LoRa_transmit H C fuel s data length timeout = some (ret, s') ∧
      (ret = 0 ∨ ret = 1) ∧ s'.lora.current_mode = s.lora.current_mode := by
  rw [LoRa_transmit_eq]
  have ht : timeout % 65536 < 65536 := Nat.mod_lt _ (by norm_num)
  have hfu : (timeout % 65536 + 65535) % 65536 < fuel :=
    lt_of_lt_of_le (Nat.mod_lt _ (by norm_num)) hf
  obtain ⟨vs, sp, _, _, _, _, hres⟩ :=
    LoRa_transmit_loop_spec H C s.lora.current_mode fuel
      (LoRa_transmit_setup H C s data length) (timeout % 65536) ht hfu
  rcases hres with ⟨_, hr⟩ | ⟨_, _, hr⟩
  · refine ⟨_, _, hr, Or.inr rfl, ?_⟩
    rw [LoRa_gotoMode_lora]
    exact modeAfter_of_isDriverMode H _ _ hm
  · refine ⟨_, _, hr, Or.inl rfl, ?_⟩
    rw [LoRa_gotoMode_lora]
    exact modeAfter_of_isDriverMode H _ _ hm

/-- C2, witness: from STANDBY (1 in `sx127x`), against a chip that never reports
transmit-done, the call returns and `current_mode` is STANDBY again. -/
theorem LoRa_transmit_restores_mode_witness :
    ∃ ret s', LoRa_transmit sx127x (fixedChip fun _ => 0) 65536 (boot (cfg433 1))
        (fun _ => 0) 2 3 = some (ret, s') ∧
      (ret = 0 ∨ ret = 1) ∧ s'.lora.current_mode = (boot (cfg433 1)).lora.current_mode :=
  LoRa_transmit_restores_mode sx127x (fixedChip fun _ => 0) 65536 (boot (cfg433 1))
    (fun _ => 0) 2 3 (by decide) (by decide)

/-- Remark on a `LoRa` object that was never initialised: `newLoRa` does not assign
`current_mode`, and with a value that is none of the five modes (here 7) a call
of `LoRa_transmit` made before `LoRa_init` ends with `current_mode = 3` (TRANSMIT),
on the timeout path (chip answering 0) and on the success path (chip answering
8) alike.  Such a value is outside the data model and is never stored by the
driver. -/
theorem LoRa_transmit_mode_not_restored :
    (boot (cfg433 7)).lora.current_mode = 7 ∧
    (LoRa_transmit sx127x (fixedChip fun _ => 0) 1 (boot (cfg433 7)) (fun _ => 0) 0 1).map
      (fun r => (r.1, r.2.lora.current_mode)) = some (0, 3) ∧
    (LoRa_transmit sx127x (fixedChip fun _ => 8) 1 (boot (cfg433 7)) (fun _ => 0) 0 1).map
      (fun r => (r.1, r.2.lora.current_mode)) = some (1, 3) := by
  decide

/-- C3, the code at the failing input: with `timeout = 0`, against a chip whose
registers always read 0 (transmit-done never set), `LoRa_transmit` returns 0 only
after 65536 reads of the interrupt-flags register and 65535 ms of delay. -/
theorem LoRa_transmit_timeout_zero_wraps :
    ∃ s', LoRa_transmit sx127x (fixedChip fun _ => 0) 65536 (boot (cfg433 1))
        (fun _ => 0) 0 0 = some (0, s') ∧
      (readVals sx127x.RegIrqFlags s'.log).length = 65536 ∧ delayMs s'.log = 65535 := by
  rw [LoRa_transmit_eq]
  obtain ⟨vs, sp, _, _, _, hlog, hres⟩ :=
    LoRa_transmit_loop_spec sx127x (fixedChip fun _ => 0) (boot (cfg433 1)).lora.current_mode
      65536 (LoRa_transmit_setup sx127x (fixedChip fun _ => 0) (boot (cfg433 1)) (fun _ => 0) 0)
      (0 % 65536) (by norm_num) (by norm_num)
  have hset : (LoRa_transmit_setup sx127x (fixedChip fun _ => 0) (boot (cfg433 1))
      (fun _ => 0) 0).log =
      [Ev.rx [1] [0], Ev.tx [129] [1], Ev.rx [14] [0], Ev.tx [141] [0], Ev.tx [162] [0],
        Ev.tx [128] [], Ev.rx [1] [0], Ev.tx [129] [3]] := by decide
  rw [hset] at hlog
  have h18 : sx127x.RegIrqFlags % 256 &&& 0x7F = 18 := by decide
  have hp := readVals_pollEvs sx127x.RegIrqFlags vs
  rw [h18] at hp hlog
  rcases hres with ⟨ha, _⟩ | ⟨_, hb, hc⟩
  · exact (ha (by rw [LoRa_read_fixedChip]; decide)).elim
  · refine ⟨_, hc, ?_, ?_⟩
    · rw [LoRa_gotoMode_log, LoRa_read_log, hlog]
      simp only [readVals_append, hp, List.length_append, hb]
      simp [readVals, sx127x, (by decide : 18 &&& 127 = 18)]
    · rw [LoRa_gotoMode_log, LoRa_read_log, hlog]
      simp only [delayMs_append, delayMs_pollEvs, hb]
      simp [delayMs]

/-- C4.  For `1 ≤ t ≤ 65535` and a header in which the interrupt-flags register is
not at the address of the mode register or of the TX base address register,
`LoRa_transmit` returns after running the loop at most `t` times: the transactions
`evs` of the call contain at most `t` reads of the interrupt-flags register; the
result is 1 exactly when one of these reads has bit 3 set, and then 0xFF is
written to the interrupt-flags register; otherwise the result is 0 and there
were exactly `t` reads. -/
theorem LoRa_transmit_polls (H : LoRa_h) (C : Chip σ) (fuel : Nat) (s : Sys σ)
    (data : Nat → Nat) (length t : Nat) (ht1 : 1 ≤ t) (ht2 : t ≤ 65535) (hf : t ≤ fuel)
    (hop : H.RegOpMode % 256 &&& 0x7F ≠ H.RegIrqFlags % 256 &&& 0x7F)
    (hbase : H.RegFiFoTxBaseAddr % 256 &&& 0x7F ≠ H.RegIrqFlags % 256 &&& 0x7F) :
    ∃ ret s' evs, LoRa_transmit H C fuel s data length t = some (ret, s') ∧
      s'.log = s.log ++ evs ∧
      (readVals H.RegIrqFlags evs).length ≤ t ∧
      (ret = 1 ↔ ∃ v ∈ readVals H.RegIrqFlags evs, v &&& 0x08 ≠ 0) ∧
      (ret = 1 → Ev.tx [H.RegIrqFlags % 256 ||| 0x80] [0xFF] ∈ evs) ∧
      (ret ≠ 1 → ret = 0 ∧ (readVals H.RegIrqFlags evs).length = t) := by
  rw [LoRa_transmit_eq]
  have htm : t % 65536 = t := Nat.mod_eq_of_lt (by omega)
  have hpred : (t + 65535) % 65536 = t - 1 := by omega
  rw [htm]
  obtain ⟨vs, sp, hlen, hvs, _, hlog, hres⟩ :=
    LoRa_transmit_loop_spec H C s.lora.current_mode fuel
      (LoRa_transmit_setup H C s data length) t (by omega) (by omega)
  obtain ⟨E, hset, hsetup⟩ : ∃ E, (LoRa_transmit_setup H C s data length).log = s.log ++ E ∧
      readVals H.RegIrqFlags E = [] := by
    obtain ⟨m₁, w₁, b, p, m₂, w₂, h⟩ := LoRa_transmit_setup_log H C s data length
    exact ⟨_, h, by simp [readVals, hop, hbase]⟩
  rw [hset] at hlog
  rw [hpred] at hlen
  rcases hres with ⟨ha, hr⟩ | ⟨ha, hb, hr⟩
  · obtain ⟨m, w, hS⟩ : ∃ m w, (LoRa_gotoMode H C
        (LoRa_write C (LoRa_read C sp H.RegIrqFlags).2 H.RegIrqFlags 0xFF) s.lora.current_mode).log =
        sp.log ++ [Ev.rx [H.RegIrqFlags % 256 &&& 0x7F] [(LoRa_read C sp H.RegIrqFlags).1],
          Ev.tx [H.RegIrqFlags % 256 ||| 0x80] [0xFF],
          Ev.rx [H.RegOpMode % 256 &&& 0x7F] [m], Ev.tx [H.RegOpMode % 256 ||| 0x80] [w]] :=
      ⟨_, _, by rw [LoRa_gotoMode_log, LoRa_write_log, LoRa_read_log]; simp only [List.append_assoc]; rfl⟩
    have hrv : readVals H.RegIrqFlags
        (E ++ pollEvs (H.RegIrqFlags % 256 &&& 0x7F) vs ++
          [Ev.rx [H.RegIrqFlags % 256 &&& 0x7F] [(LoRa_read C sp H.RegIrqFlags).1],
            Ev.tx [H.RegIrqFlags % 256 ||| 0x80] [0xFF],
            Ev.rx [H.RegOpMode % 256 &&& 0x7F] [m], Ev.tx [H.RegOpMode % 256 ||| 0x80] [w]]) =
        vs ++ [(LoRa_read C sp H.RegIrqFlags).1] := by
      simp only [readVals_append, hsetup, readVals_pollEvs, List.nil_append]
      simp [readVals, hop]
    refine ⟨1, _, E ++ pollEvs (H.RegIrqFlags % 256 &&& 0x7F) vs ++
      [Ev.rx [H.RegIrqFlags % 256 &&& 0x7F] [(LoRa_read C sp H.RegIrqFlags).1],
        Ev.tx [H.RegIrqFlags % 256 ||| 0x80] [0xFF],
        Ev.rx [H.RegOpMode % 256 &&& 0x7F] [m], Ev.tx [H.RegOpMode % 256 ||| 0x80] [w]],
      hr, ?_, ?_, ?_, ?_, ?_⟩
    · rw [hS, hlog]; simp only [List.append_assoc]
    · rw [hrv, List.length_append, List.length_singleton]; omega
    · rw [hrv]
      exact ⟨fun _ => ⟨_, by simp, ha⟩, fun _ => rfl⟩
    · intro _; simp
    · intro h; exact absurd rfl h
  · obtain ⟨m, w, hS⟩ : ∃ m w, (LoRa_gotoMode H C (LoRa_read C sp H.RegIrqFlags).2
        s.lora.current_mode).log =
        sp.log ++ [Ev.rx [H.RegIrqFlags % 256 &&& 0x7F] [(LoRa_read C sp H.RegIrqFlags).1],
          Ev.rx [H.RegOpMode % 256 &&& 0x7F] [m], Ev.tx [H.RegOpMode % 256 ||| 0x80] [w]] :=
      ⟨_, _, by rw [LoRa_gotoMode_log, LoRa_read_log]; simp only [List.append_assoc]; rfl⟩
    have hrv : readVals H.RegIrqFlags
        (E ++ pollEvs (H.RegIrqFlags % 256 &&& 0x7F) vs ++
          [Ev.rx [H.RegIrqFlags % 256 &&& 0x7F] [(LoRa_read C sp H.RegIrqFlags).1],
            Ev.rx [H.RegOpMode % 256 &&& 0x7F] [m], Ev.tx [H.RegOpMode % 256 ||| 0x80] [w]]) =
        vs ++ [(LoRa_read C sp H.RegIrqFlags).1] := by
      simp only [readVals_append, hsetup, readVals_pollEvs, List.nil_append]
      simp [readVals, hop]
    refine ⟨0, _, E ++ pollEvs (H.RegIrqFlags % 256 &&& 0x7F) vs ++
      [Ev.rx [H.RegIrqFlags % 256 &&& 0x7F] [(LoRa_read C sp H.RegIrqFlags).1],
        Ev.rx [H.RegOpMode % 256 &&& 0x7F] [m], Ev.tx [H.RegOpMode % 256 ||| 0x80] [w]],
      hr, ?_, ?_, ?_, ?_, ?_⟩
    · rw [hS, hlog]; simp only [List.append_assoc]
    · rw [hrv, List.length_append, List.length_singleton]; omega
    · rw [hrv]
      constructor
      · intro h; exact absurd h (by decide)
      · rintro ⟨v, hv, hv8⟩
        rcases List.mem_append.mp hv with hv | hv
        · exact absurd (hvs v hv) hv8
        · rw [List.mem_singleton.mp hv] at hv8
          exact absurd ha hv8
    · intro h; exact absurd h (by decide)
    · intro _
      refine ⟨rfl, ?_⟩
      rw [hrv, List.length_append, List.length_singleton]; omega

/-- C4, witness: `t = 3` against a chip that never reports transmit-done. -/
theorem LoRa_transmit_polls_witness :
    ∃ ret s' evs, LoRa_transmit sx127x (fixedChip fun _ => 0) 3 (boot (cfg433 1))
        (fun _ => 0) 2 3 = some (ret, s') ∧
      s'.log = (boot (cfg433 1)).log ++ evs ∧
      (readVals sx127x.RegIrqFlags evs).length ≤ 3 ∧
      (ret = 1 ↔ ∃ v ∈ readVals sx127x.RegIrqFlags evs, v &&& 0x08 ≠ 0) ∧
      (ret = 1 → Ev.tx [sx127x.RegIrqFlags % 256 ||| 0x80] [0xFF] ∈ evs) ∧
      (ret ≠ 1 → ret = 0 ∧ (readVals sx127x.RegIrqFlags evs).length = 3) :=
  LoRa_transmit_polls sx127x (fixedChip fun _ => 0) 3 (boot (cfg433 1)) (fun _ => 0) 2 3
    (by decide) (by decide) (by decide) (by decide) (by decide)

/-! ## Receive -/

/-- The copy loop makes exactly `n` reads of the FIFO register and nothing else, and
stores the bytes read at `data[i], …, data[i + n - 1]` in the order read; the
rest of the buffer is untouched. -/
theorem LoRa_receive_copy_spec (H : LoRa_h) (C : Chip σ) :
    ∀ (n i : Nat) (s : Sys σ) (data : Nat → Nat),
      ∃ fifo : List Nat, fifo.length = n ∧
        (LoRa_receive_copy H C n i s data).2.log =
          s.log ++ fifo.map (fun v => Ev.rx [H.RegFiFo % 256 &&& 0x7F] [v]) ∧
        (LoRa_receive_copy H C n i s data).2.lora = s.lora ∧
        (∀ j, j < n → (LoRa_receive_copy H C n i s data).1 (i + j) = fifo.getD j 0) ∧
        (∀ k, k < i ∨ i + n ≤ k → (LoRa_receive_copy H C n i s data).1 k = data k) := by
  intro n
  induction n with
  | zero =>
    intro i s data
    exact ⟨[], rfl, by simp [LoRa_receive_copy], rfl, fun j hj => absurd hj (Nat.not_lt_zero j),
      fun k _ => rfl⟩
  | succ n ih =>
    intro i s data
    obtain ⟨fifo, hlen, hlog, hlora, hcopy, hrest⟩ :=
      ih (i + 1) (LoRa_read C s H.RegFiFo).2 (Function.update data i (LoRa_read C s H.RegFiFo).1)
    refine ⟨(LoRa_read C s H.RegFiFo).1 :: fifo, by simp [hlen], ?_, ?_, ?_, ?_⟩
    · show (LoRa_receive_copy H C n (i + 1) _ _).2.log = _
      rw [hlog]; simp
    · show (LoRa_receive_copy H C n (i + 1) _ _).2.lora = _
      rw [hlora]; rfl
    · intro j hj
      show (LoRa_receive_copy H C n (i + 1) _ _).1 (i + j) = _
      cases j with
      | zero =>
        rw [hrest (i + 0) (Or.inl (by omega))]
        simp
      | succ j =>
        have := hcopy j (by omega)
        rw [show i + (j + 1) = i + 1 + j by omega, this]
        simp
    · intro k hk
      show (LoRa_receive_copy H C n (i + 1) _ _).1 k = _
      rw [hrest k (by omega)]
      exact Function.update_noteq (by omega) _ _

/-- C5.  When the interrupt-flags byte that `LoRa_receive` reads has the receive-done
bit (0x40) set, the transactions of the call are: the switch to standby, the
flags read, the flags cleared with 0xFF, the read of the byte count
`receivedCount`, the read of the current RX address and its write to the FIFO
pointer, then exactly `min(length, receivedCount)` reads of the FIFO register,
then the switch to continuous receive.  The result is `min(length, receivedCount)`
and the bytes read from the FIFO are in the buffer at positions `0 … min - 1`, in
the order read.  (`length` is a `uint8_t` parameter.) -/
theorem LoRa_receive_copies (H : LoRa_h) (C : Chip σ) (s : Sys σ) (data : Nat → Nat)
    (length : Nat)
    (hdone : (LoRa_read C (LoRa_gotoMode H C s H.STNBY_MODE) H.RegIrqFlags).1 &&& 0x40 ≠ 0) :
    ∃ (m w flags receivedCount cur : Nat) (fifo : List Nat) (m' w' : Nat),
      (LoRa_receive H C s data length).2.2.log =
        s.log ++
          [Ev.rx [H.RegOpMode % 256 &&& 0x7F] [m], Ev.tx [H.RegOpMode % 256 ||| 0x80] [w],
            Ev.rx [H.RegIrqFlags % 256 &&& 0x7F] [flags],
            Ev.tx [H.RegIrqFlags % 256 ||| 0x80] [0xFF],
            Ev.rx [H.RegRxNbBytes % 256 &&& 0x7F] [receivedCount],
            Ev.rx [H.RegFiFoRxCurrentAddr % 256 &&& 0x7F] [cur],
            Ev.tx [H.RegFiFoAddPtr % 256 ||| 0x80] [cur]] ++
          fifo.map (fun v => Ev.rx [H.RegFiFo % 256 &&& 0x7F] [v]) ++
          [Ev.rx [H.RegOpMode % 256 &&& 0x7F] [m'], Ev.tx [H.RegOpMode % 256 ||| 0x80] [w']] ∧
      flags &&& 0x40 ≠ 0 ∧
      (LoRa_receive H C s data length).1 = min (length % 256) receivedCount ∧
      fifo.length = min (length % 256) receivedCount ∧
      ∀ i, i < min (length % 256) receivedCount →
        (LoRa_receive H C s data length).2.1 i = fifo.getD i 0 := by
  let s1 := LoRa_gotoMode H C s H.STNBY_MODE
  let r1 := LoRa_read C s1 H.RegIrqFlags
  let s2 := LoRa_write C r1.2 H.RegIrqFlags 0xFF
  let r2 := LoRa_read C s2 H.RegRxNbBytes
  let r3 := LoRa_read C r2.2 H.RegFiFoRxCurrentAddr
  let s3 := LoRa_write C r3.2 H.RegFiFoAddPtr r3.1
  let mn := if length % 256 ≥ r2.1 then r2.1 else length % 256
  let c := LoRa_receive_copy H C mn 0 s3 (fun i => if i < length % 256 then 0 else data i)
  have hrec : LoRa_receive H C s data length =
      (mn, c.1, LoRa_gotoMode H C c.2 H.RXCONTIN_MODE) := by
    unfold LoRa_receive
    exact if_pos hdone
  rw [hrec]
  have hmn : mn = min (length % 256) r2.1 := by
    show (if length % 256 ≥ r2.1 then r2.1 else length % 256) = _
    rw [Nat.min_def]; split_ifs <;> omega
  obtain ⟨fifo, hlen, hlog, _, hcopy, _⟩ :=
    LoRa_receive_copy_spec H C mn 0 s3 (fun i => if i < length % 256 then 0 else data i)
  have hcur : r3.1 % 256 = r3.1 := Nat.mod_eq_of_lt (LoRa_read_lt C r2.2 H.RegFiFoRxCurrentAddr)
  refine ⟨(LoRa_read C s H.RegOpMode).1,
    opModeByte H H.STNBY_MODE (LoRa_read C s H.RegOpMode).1 % 256, r1.1, r2.1, r3.1, fifo,
    (LoRa_read C c.2 H.RegOpMode).1,
    opModeByte H H.RXCONTIN_MODE (LoRa_read C c.2 H.RegOpMode).1 % 256,
    ?_, hdone, hmn, hmn ▸ hlen, ?_⟩
  · show (LoRa_gotoMode H C c.2 H.RXCONTIN_MODE).log = _
    rw [LoRa_gotoMode_log, hlog]
    simp only [s3, r3, r2, s2, r1, s1, LoRa_write_log, LoRa_read_log, LoRa_gotoMode_log,
      List.append_assoc, List.cons_append, List.nil_append]
    rw [hcur]
  · intro i hi
    have := hcopy i (hmn ▸ hi)
    rw [Nat.zero_add] at this
    exact this

/-- C5, witness: a chip with receive-done set and a byte count of 20, read into a
buffer of length 10: the call returns 10 and the ten FIFO bytes (9 each) are in
the buffer, the byte behind them is not touched. -/
theorem LoRa_receive_copies_witness :
    (LoRa_receive sx127x (fixedChip fun a => if a = 0x12 then 0x40 else if a = 0x13 then 20 else 9)
        (boot (cfg433 1)) (fun _ => 1) 10).1 = 10 ∧
    (List.range 11).map (LoRa_receive sx127x
        (fixedChip fun a => if a = 0x12 then 0x40 else if a = 0x13 then 20 else 9)
        (boot (cfg433 1)) (fun _ => 1) 10).2.1 = [9, 9, 9, 9, 9, 9, 9, 9, 9, 9, 1] ∧
    ∃ (m w flags receivedCount cur : Nat) (fifo : List Nat) (m' w' : Nat),
      (LoRa_receive sx127x (fixedChip fun a => if a = 0x12 then 0x40 else if a = 0x13 then 20 else 9)
          (boot (cfg433 1)) (fun _ => 1) 10).2.2.log =
        (boot (cfg433 1)).log ++
          [Ev.rx [sx127x.RegOpMode % 256 &&& 0x7F] [m], Ev.tx [sx127x.RegOpMode % 256 ||| 0x80] [w],
            Ev.rx [sx127x.RegIrqFlags % 256 &&& 0x7F] [flags],
            Ev.tx [sx127x.RegIrqFlags % 256 ||| 0x80] [0xFF],
            Ev.rx [sx127x.RegRxNbBytes % 256 &&& 0x7F] [receivedCount],
            Ev.rx [sx127x.RegFiFoRxCurrentAddr % 256 &&& 0x7F] [cur],
            Ev.tx [sx127x.RegFiFoAddPtr % 256 ||| 0x80] [cur]] ++
          fifo.map (fun v => Ev.rx [sx127x.RegFiFo % 256 &&& 0x7F] [v]) ++
          [Ev.rx [sx127x.RegOpMode % 256 &&& 0x7F] [m'],
            Ev.tx [sx127x.RegOpMode % 256 ||| 0x80] [w']] ∧
      flags &&& 0x40 ≠ 0 ∧
      (LoRa_receive sx127x (fixedChip fun a => if a = 0x12 then 0x40 else if a = 0x13 then 20 else 9)
          (boot (cfg433 1)) (fun _ => 1) 10).1 = min (10 % 256) receivedCount ∧
      fifo.length = min (10 % 256) receivedCount ∧
      ∀ i, i < min (10 % 256) receivedCount →
        (LoRa_receive sx127x
            (fixedChip fun a => if a = 0x12 then 0x40 else if a = 0x13 then 20 else 9)
            (boot (cfg433 1)) (fun _ => 1) 10).2.1 i = fifo.getD i 0 :=
  ⟨by decide, by decide,
    LoRa_receive_copies sx127x
      (fixedChip fun a => if a = 0x12 then 0x40 else if a = 0x13 then 20 else 9)
      (boot (cfg433 1)) (fun _ => 1) 10 (by decide)⟩

/-- C6.  Whatever `current_mode` was before the call and whatever the chip answers
(receive-done set or not), after `LoRa_receive` the cached `current_mode` is
`RXCONTIN_MODE`. -/
theorem LoRa_receive_mode (H : LoRa_h) (C : Chip σ) (s : Sys σ) (data : Nat → Nat)
    (length : Nat) :
    (LoRa_receive H C s data length).2.2.lora.current_mode = H.RXCONTIN_MODE := by
  have hm : ∀ cur, modeAfter H cur H.RXCONTIN_MODE = H.RXCONTIN_MODE := fun cur =>
    modeAfter_of_isDriverMode H cur _ (Or.inr (Or.inr (Or.inr (Or.inl rfl))))
  unfold LoRa_receive
  by_cases hdone : (LoRa_read C (LoRa_gotoMode H C s H.STNBY_MODE) H.RegIrqFlags).1 &&& 0x40 ≠ 0
  · simp only [hdone, ne_eq, not_false_eq_true, if_true]
    rw [LoRa_gotoMode_lora, hm]
  · simp only [hdone, ne_eq, not_false_eq_true, if_false]
    rw [LoRa_gotoMode_lora, hm]

/-! ## Frequency word -/

theorem frequencyWord_bytes (freq : Int) :
    ((wrapInt32 (freq * 524288) / 32) % 4294967296).toNat / 65536 % 256 =
        frequencyWord freq / 65536 % 256 ∧
    ((wrapInt32 (freq * 524288) / 32) % 4294967296).toNat / 256 % 256 =
        frequencyWord freq / 256 % 256 ∧
    ((wrapInt32 (freq * 524288) / 32) % 4294967296).toNat % 256 = frequencyWord freq % 256 := by
  unfold wrapInt32 frequencyWord
  norm_num
  omega

/-- C7.  For every `freq`, `LoRa_setFrequency` makes three writes, to `RegFrMsb`,
`RegFrMid` and `RegFrLsb` in this order, each followed by 5 ms, of the bytes
`(F >> 16) & 0xFF`, `(F >> 8) & 0xFF` and `F & 0xFF` of
`F = floor(freq * 2^19 / 32)` with the product wrapping modulo `2^32`; the 24 bits
written are also the low 24 bits of the quotient computed without wrapping. -/
theorem LoRa_setFrequency_bytes (H : LoRa_h) (C : Chip σ) (s : Sys σ) (freq : Int) :
    (LoRa_setFrequency H C s freq).log =
      s.log ++
        [Ev.tx [H.RegFrMsb % 256 ||| 0x80] [(frequencyWord freq >>> 16) &&& 0xFF], Ev.delay 5,
          Ev.tx [H.RegFrMid % 256 ||| 0x80] [(frequencyWord freq >>> 8) &&& 0xFF], Ev.delay 5,
          Ev.tx [H.RegFrLsb % 256 ||| 0x80] [frequencyWord freq &&& 0xFF], Ev.delay 5] ∧
    (frequencyWord freq % 2 ^ 24 : Int) = (freq * 2 ^ 19 / 32) % 2 ^ 24 := by
  constructor
  · obtain ⟨h2, h1, h0⟩ := frequencyWord_bytes freq
    have e8 : ∀ x : Nat, x &&& 0xFF = x % 256 := fun x => Nat.and_pow_two_sub_one_eq_mod x 8
    unfold LoRa_setFrequency
    simp only [HAL_Delay_log, LoRa_write_log, List.append_assoc, List.cons_append,
      List.nil_append, e8, Nat.shiftRight_eq_div_pow, Nat.pow_zero, Nat.div_one]
    norm_num
    exact ⟨h2, h1, h0⟩
  · unfold frequencyWord
    norm_num
    omega

/-! ## Spreading factor -/

/-- C9.  For every integer `SF` and every byte `r` read from `RegModemConfig2`,
`LoRa_setSpreadingFactor` reads the register, waits 10 ms and writes it back with
the high nibble equal to `SF` clamped to 7..12 and the low nibble equal to that
of `r`. -/
theorem LoRa_setSpreadingFactor_byte (H : LoRa_h) (C : Chip σ) (s : Sys σ) (SF : Int) :
    ∃ (r d : Nat) (rest : List Ev),
      (LoRa_setSpreadingFactor H C s SF).log =
        s.log ++
          [Ev.rx [H.RegModemConfig2 % 256 &&& 0x7F] [r], Ev.delay 10,
            Ev.tx [H.RegModemConfig2 % 256 ||| 0x80] [d], Ev.delay 10] ++ rest ∧
      d < 256 ∧ ((d >>> 4 : Nat) : Int) = max 7 (min 12 SF) ∧ d &&& 0x0F = r &&& 0x0F := by
  have e4 : ∀ x : Nat, x &&& 0x0F = x % 16 := fun x => Nat.and_pow_two_sub_one_eq_mod x 4
  have hlog : (LoRa_setSpreadingFactor H C s SF).log =
      s.log ++
        [Ev.rx [H.RegModemConfig2 % 256 &&& 0x7F] [(LoRa_read C s H.RegModemConfig2).1],
          Ev.delay 10,
          Ev.tx [H.RegModemConfig2 % 256 ||| 0x80]
            [(((if (if SF > 12 then 12 else SF) < 7 then 7 else (if SF > 12 then 12 else SF)).toNat
              <<< 4) + ((LoRa_read C s H.RegModemConfig2).1 &&& 0x0F)) % 256],
          Ev.delay 10] ++
        [Ev.rx [H.RegModemConfig3 % 256 &&& 0x7F]
            [(LoRa_read C (HAL_Delay C (LoRa_write C (HAL_Delay C
              (LoRa_read C s H.RegModemConfig2).2 10) H.RegModemConfig2
              (((if (if SF > 12 then 12 else SF) < 7 then 7
                  else (if SF > 12 then 12 else SF)).toNat <<< 4) +
                ((LoRa_read C s H.RegModemConfig2).1 &&& 0x0F))) 10) H.RegModemConfig3).1],
          Ev.tx [H.RegModemConfig3 % 256 ||| 0x80]
            [(if LoRa_setAutoLDO_value H s.lora % 256 ≠ 0 then
                (LoRa_read C (HAL_Delay C (LoRa_write C (HAL_Delay C
                  (LoRa_read C s H.RegModemConfig2).2 10) H.RegModemConfig2
                  (((if (if SF > 12 then 12 else SF) < 7 then 7
                      else (if SF > 12 then 12 else SF)).toNat <<< 4) +
                    ((LoRa_read C s H.RegModemConfig2).1 &&& 0x0F))) 10) H.RegModemConfig3).1
                  ||| 0x08
              else
                (LoRa_read C (HAL_Delay C (LoRa_write C (HAL_Delay C
                  (LoRa_read C s H.RegModemConfig2).2 10) H.RegModemConfig2
                  (((if (if SF > 12 then 12 else SF) < 7 then 7
                      else (if SF > 12 then 12 else SF)).toNat <<< 4) +
                    ((LoRa_read C s H.RegModemConfig2).1 &&& 0x0F))) 10) H.RegModemConfig3).1
                  &&& 0xF7) % 256],
          Ev.delay 10] := by
    unfold LoRa_setSpreadingFactor LoRa_setAutoLDO LoRa_setLowDaraRateOptimization
    simp only [HAL_Delay_log, LoRa_write_log, LoRa_read_log, List.append_assoc, List.cons_append,
      List.nil_append, HAL_Delay_lora, LoRa_write_lora, LoRa_read_lora]
  refine ⟨_, _, _, hlog, Nat.mod_lt _ (by norm_num), ?_, ?_⟩
  · rw [e4, Nat.shiftLeft_eq, Nat.shiftRight_eq_div_pow]
    split_ifs <;> omega
  · rw [e4, e4, Nat.shiftLeft_eq]
    split_ifs <;> omega

/-! ## Over-current protection -/

theorem ocpTrim_le (mA : Nat) : ocpTrim mA ≤ 27 := by
  unfold ocpTrim
  split_ifs <;> omega

theorem ocpTrim_mono (a b : Nat) (h : a ≤ b) : ocpTrim a ≤ ocpTrim b := by
  unfold ocpTrim
  split_ifs <;> omega

/-- The transactions of `LoRa_setOCP`: one write of `trim + 32`, then 10 ms. -/
theorem LoRa_setOCP_log (H : LoRa_h) (C : Chip σ) (s : Sys σ) (current : Nat) :
    (LoRa_setOCP H C s current).log =
      s.log ++ [Ev.tx [H.RegOcp % 256 ||| 0x80] [ocpTrim (current % 256) + 32], Ev.delay 10] := by
  have hv : ∀ c : Nat,
      ((if (if (if c < 45 then 45 else c) > 240 then 240 else (if c < 45 then 45 else c)) ≤ 120
          then ((if (if c < 45 then 45 else c) > 240 then 240 else (if c < 45 then 45 else c))
            - 45) / 5 % 256
        else if (if (if c < 45 then 45 else c) > 240 then 240 else (if c < 45 then 45 else c))
            ≤ 240
          then ((if (if c < 45 then 45 else c) > 240 then 240 else (if c < 45 then 45 else c))
            + 30) / 10 % 256
        else 0) + 1 <<< 5) % 256 % 256 = ocpTrim c + 32 := by
    intro c
    have h5 : (1 <<< 5 : Nat) = 32 := by decide
    rw [h5]
    unfold ocpTrim
    split_ifs <;> omega
  unfold LoRa_setOCP
  simp only [HAL_Delay_log, LoRa_write_log, List.append_assoc, List.cons_append, List.nil_append]
  rw [hv]

theorem and_0x20_of_mem (v : Nat) (h1 : 32 ≤ v) (h2 : v < 64) : v &&& 0x20 = 0x20 := by
  have h : ∀ w, w < 64 → 32 ≤ w → w &&& 0x20 = 0x20 := by decide
  exact h v h2 h1

/-- C10.  For 8-bit arguments `a ≤ b`, the byte `LoRa_setOCP` writes to `RegOcp` for `a`
has a trim field (low 5 bits) not above that of the byte it writes for `b`, and
both bytes have bit 5 set. -/
theorem LoRa_setOCP_monotone (H : LoRa_h) (C : Chip σ) (s : Sys σ) (a b : Nat)
    (hab : a ≤ b) (hb : b < 256) :
    ∃ va vb,
      (LoRa_setOCP H C s a).log = s.log ++ [Ev.tx [H.RegOcp % 256 ||| 0x80] [va], Ev.delay 10] ∧
      (LoRa_setOCP H C s b).log = s.log ++ [Ev.tx [H.RegOcp % 256 ||| 0x80] [vb], Ev.delay 10] ∧
      va &&& 0x1F ≤ vb &&& 0x1F ∧ va &&& 0x20 = 0x20 ∧ vb &&& 0x20 = 0x20 := by
  have e5 : ∀ x : Nat, x &&& 0x1F = x % 32 := fun x => Nat.and_pow_two_sub_one_eq_mod x 5
  have ha : a % 256 = a := Nat.mod_eq_of_lt (by omega)
  have hb' : b % 256 = b := Nat.mod_eq_of_lt hb
  have hmono := ocpTrim_mono a b hab
  have hla := ocpTrim_le a
  have hlb := ocpTrim_le b
  refine ⟨ocpTrim a + 32, ocpTrim b + 32, ?_, ?_, ?_, ?_, ?_⟩
  · rw [LoRa_setOCP_log, ha]
  · rw [LoRa_setOCP_log, hb']
  · rw [e5, e5]; omega
  · exact and_0x20_of_mem _ (by omega) (by omega)
  · exact and_0x20_of_mem _ (by omega) (by omega)

/-- C10, witness: across the boundary between the two formulas, 120 mA and 121 mA
both give trim 15 with the enable bit (byte 47). -/
theorem LoRa_setOCP_monotone_witness :
    ∃ va vb,
      (LoRa_setOCP sx127x (fixedChip fun _ => 0) (boot (cfg433 1)) 120).log =
        (boot (cfg433 1)).log ++ [Ev.tx [sx127x.RegOcp % 256 ||| 0x80] [va], Ev.delay 10] ∧
      (LoRa_setOCP sx127x (fixedChip fun _ => 0) (boot (cfg433 1)) 121).log =
        (boot (cfg433 1)).log ++ [Ev.tx [sx127x.RegOcp % 256 ||| 0x80] [vb], Ev.delay 10] ∧
      va &&& 0x1F ≤ vb &&& 0x1F ∧ va &&& 0x20 = 0x20 ∧ vb &&& 0x20 = 0x20 :=
  LoRa_setOCP_monotone sx127x (fixedChip fun _ => 0) (boot (cfg433 1)) 120 121
    (by decide) (by decide)

/-! ## Low data rate optimisation -/

/-- The table `BW` of the model holds the bandwidths of `bandwidthKHz`, in Hz. -/
theorem bandwidthKHz_eq_BW (bw : Nat) (h : bw < 10) :
    bandwidthKHz.getD bw 1 = (BW.getD bw 1 : ℚ) / 1000 := by
  interval_cases bw <;> norm_num [bandwidthKHz, BW]

/-- The integer quotient of the model is the exact quotient `2^sf / BW[bw]` (in kHz)
truncated, as in the source. -/
theorem LoRa_setAutoLDO_trunc_exact (sf bw : Nat) (h : bw < 10) :
    ((2 ^ sf * 1000 / BW.getD bw 1 : Nat) : Int) = ⌊symbolDurationMs sf bw⌋ := by
  unfold symbolDurationMs
  rw [bandwidthKHz_eq_BW bw h, div_div_eq_mul_div,
    show (2 : ℚ) ^ sf * 1000 = ((2 ^ sf * 1000 : Nat) : ℚ) by push_cast; ring,
    Rat.floor_natCast_div_natCast]
  norm_cast

/-- What the code decides: inside the table, the flag is set exactly when the
truncated symbol duration exceeds 16, that is, when the duration is at least
17 ms. -/
theorem LoRa_setAutoLDO_value_iff (H : LoRa_h) (l : LoRa) (hsf : l.spredingFactor % 256 < 31)
    (hbw : l.bandWidth % 256 < 10) :
    (LoRa_setAutoLDO_value H l = 1 ↔
        17 ≤ symbolDurationMs (l.spredingFactor % 256) (l.bandWidth % 256)) ∧
      (LoRa_setAutoLDO_value H l ≠ 1 → LoRa_setAutoLDO_value H l = 0) := by
  have hfl := LoRa_setAutoLDO_trunc_exact (l.spredingFactor % 256) (l.bandWidth % 256) hbw
  have h17 : (17 : ℚ) = ((17 : Int) : ℚ) := by norm_num
  rw [h17, ← Int.le_floor, ← hfl]
  unfold LoRa_setAutoLDO_value
  rw [if_pos ⟨hsf, hbw⟩]
  constructor
  · constructor
    · intro h
      split_ifs at h with hq
      exact_mod_cast hq
    · intro h
      have hq : 2 ^ (l.spredingFactor % 256) * 1000 / BW.getD (l.bandWidth % 256) 1 > 16 := by
        exact_mod_cast h
      rw [if_pos hq]
  · intro h
    split_ifs at h ⊢ with hq
    · exact absurd rfl h
    · rfl

/-- C8, the code at the failing input: spreading factor 11 at 125 kHz (table index 7)
has a symbol duration of 16.384 ms, above 16 ms, and `LoRa_setAutoLDO` writes the
register back with bit 3 cleared (0xFF read, 0xF7 written). -/
theorem LoRa_setAutoLDO_truncates :
    16 < symbolDurationMs 11 7 ∧
    (LoRa_setAutoLDO sx127x (fixedChip fun _ => 0xFF)
        (boot { cfg433 1 with spredingFactor := 11, bandWidth := 7 })).log =
      [Ev.rx [0x26] [0xFF], Ev.tx [0xA6] [0xF7], Ev.delay 10] := by
  constructor
  · norm_num [symbolDurationMs, bandwidthKHz]
  · decide

/-! ## Over-current protection: the byte written -/

theorem add_eq_or_0x20 (t : Nat) (h : t ≤ 27) : t + (1 <<< 5) = t ||| (1 <<< 5) := by
  have key : ∀ u, u < 28 → u + (1 <<< 5) = u ||| (1 <<< 5) := by decide
  exact key t (by omega)

/-- C11.  For every 8-bit `mA`, `LoRa_setOCP` makes exactly one write, to `RegOcp`, of
`trim | (1 << 5)`, where with `v` = `mA` clamped to 45..240 the trim is
`(v - 45) / 5` when `v ≤ 120` and `(v + 30) / 10` otherwise; the trim is at most
27, so the addition in the code is the bitwise OR. -/
theorem LoRa_setOCP_byte (H : LoRa_h) (C : Chip σ) (s : Sys σ) (mA : Nat) (h : mA < 256) :
    (LoRa_setOCP H C s mA).log =
      s.log ++ [Ev.tx [H.RegOcp % 256 ||| 0x80] [ocpTrim mA ||| (1 <<< 5)], Ev.delay 10] ∧
    ocpTrim mA =
      (if max 45 (min 240 mA) ≤ 120 then (max 45 (min 240 mA) - 45) / 5
        else (max 45 (min 240 mA) + 30) / 10) ∧
    ocpTrim mA ≤ 27 ∧ ocpTrim mA + (1 <<< 5) = ocpTrim mA ||| (1 <<< 5) := by
  have hor := add_eq_or_0x20 (ocpTrim mA) (ocpTrim_le mA)
  refine ⟨?_, rfl, ocpTrim_le mA, hor⟩
  rw [LoRa_setOCP_log, Nat.mod_eq_of_lt h, ← hor]
  rfl

/-- C11, witness: 100 mA gives trim 11 and the byte 43; 240 mA gives trim 27 and
the byte 59. -/
theorem LoRa_setOCP_byte_witness :
    ((LoRa_setOCP sx127x (fixedChip fun _ => 0) (boot (cfg433 1)) 100).log =
        (boot (cfg433 1)).log ++ [Ev.tx [sx127x.RegOcp % 256 ||| 0x80] [ocpTrim 100 ||| (1 <<< 5)],
          Ev.delay 10] ∧
      ocpTrim 100 =
        (if max 45 (min 240 100) ≤ 120 then (max 45 (min 240 100) - 45) / 5
          else (max 45 (min 240 100) + 30) / 10) ∧
      ocpTrim 100 ≤ 27 ∧ ocpTrim 100 + (1 <<< 5) = ocpTrim 100 ||| (1 <<< 5)) ∧
    ocpTrim 100 ||| (1 <<< 5) = 43 ∧ ocpTrim 240 ||| (1 <<< 5) = 59 :=
  ⟨LoRa_setOCP_byte sx127x (fixedChip fun _ => 0) (boot (cfg433 1)) 100 (by decide),
    by decide, by decide⟩

/-! ## Mode control: the byte written -/

theorem opMode_bits (r : Nat) (hr : r < 256) :
    (((r &&& 0xF8) ||| 0x00) % 256 &&& 0xF8 = r &&& 0xF8 ∧ ((r &&& 0xF8) ||| 0x00) % 256 &&& 0x07 = 0) ∧
    (((r &&& 0xF8) ||| 0x01) % 256 &&& 0xF8 = r &&& 0xF8 ∧ ((r &&& 0xF8) ||| 0x01) % 256 &&& 0x07 = 1) ∧
    (((r &&& 0xF8) ||| 0x03) % 256 &&& 0xF8 = r &&& 0xF8 ∧ ((r &&& 0xF8) ||| 0x03) % 256 &&& 0x07 = 3) ∧
    (((r &&& 0xF8) ||| 0x05) % 256 &&& 0xF8 = r &&& 0xF8 ∧ ((r &&& 0xF8) ||| 0x05) % 256 &&& 0x07 = 5) ∧
    (((r &&& 0xF8) ||| 0x06) % 256 &&& 0xF8 = r &&& 0xF8 ∧ ((r &&& 0xF8) ||| 0x06) % 256 &&& 0x07 = 6) := by
  have key : ∀ x, x < 256 →
      (((x &&& 0xF8) ||| 0x00) % 256 &&& 0xF8 = x &&& 0xF8 ∧
        ((x &&& 0xF8) ||| 0x00) % 256 &&& 0x07 = 0) ∧
      (((x &&& 0xF8) ||| 0x01) % 256 &&& 0xF8 = x &&& 0xF8 ∧
        ((x &&& 0xF8) ||| 0x01) % 256 &&& 0x07 = 1) ∧
      (((x &&& 0xF8) ||| 0x03) % 256 &&& 0xF8 = x &&& 0xF8 ∧
        ((x &&& 0xF8) ||| 0x03) % 256 &&& 0x07 = 3) ∧
      (((x &&& 0xF8) ||| 0x05) % 256 &&& 0xF8 = x &&& 0xF8 ∧
        ((x &&& 0xF8) ||| 0x05) % 256 &&& 0x07 = 5) ∧
      (((x &&& 0xF8) ||| 0x06) % 256 &&& 0xF8 = x &&& 0xF8 ∧
        ((x &&& 0xF8) ||| 0x06) % 256 &&& 0x07 = 6) := by
    set_option maxRecDepth 8192 in decide
  exact key r hr

/-- C12.  For every argument `mode` (one of the five modes or any other integer),
`LoRa_gotoMode` reads a byte `r` from the mode register and writes back a byte `w`
with the same upper five bits, `w & 0xF8 = r & 0xF8`; and, the five mode macros
being distinct, the low three bits of `w` are 0 for `SLEEP_MODE`, 1 for
`STNBY_MODE`, 3 for `TRANSMIT_MODE`, 5 for `RXCONTIN_MODE` and 6 for
`RXSINGLE_MODE`. -/
theorem LoRa_gotoMode_byte (H : LoRa_h) (C : Chip σ) (s : Sys σ) (mode : Int) :
    ∃ r w,
      (LoRa_gotoMode H C s mode).log =
        s.log ++ [Ev.rx [H.RegOpMode % 256 &&& 0x7F] [r], Ev.tx [H.RegOpMode % 256 ||| 0x80] [w]] ∧
      w &&& 0xF8 = r &&& 0xF8 ∧
      ([H.SLEEP_MODE, H.STNBY_MODE, H.TRANSMIT_MODE, H.RXCONTIN_MODE, H.RXSINGLE_MODE].Nodup →
        (mode = H.SLEEP_MODE → w &&& 0x07 = 0) ∧ (mode = H.STNBY_MODE → w &&& 0x07 = 1) ∧
        (mode = H.TRANSMIT_MODE → w &&& 0x07 = 3) ∧ (mode = H.RXCONTIN_MODE → w &&& 0x07 = 5) ∧
        (mode = H.RXSINGLE_MODE → w &&& 0x07 = 6)) := by
  have hr := LoRa_read_lt C s H.RegOpMode
  obtain ⟨⟨a0, b0⟩, ⟨a1, b1⟩, ⟨a3, b3⟩, ⟨a5, b5⟩, ⟨a6, b6⟩⟩ :=
    opMode_bits (LoRa_read C s H.RegOpMode).1 hr
  refine ⟨_, _, LoRa_gotoMode_log H C s mode, ?_, ?_⟩
  · unfold opModeByte
    split_ifs
    · exact a0
    · exact a1
    · exact a3
    · exact a5
    · exact a6
    · rw [Nat.mod_eq_of_lt hr]
  · intro hnd
    simp only [List.nodup_cons, List.mem_cons, List.mem_singleton, not_or, List.not_mem_nil,
      not_false_eq_true, List.nodup_nil, and_true] at hnd
    obtain ⟨⟨h01, h02, h03, h04⟩, ⟨h12, h13, h14⟩, ⟨h23, h24⟩, h34⟩ := hnd
    unfold opModeByte
    refine ⟨?_, ?_, ?_, ?_, ?_⟩
    · intro hm; rw [if_pos hm]; exact b0
    · intro hm; rw [if_neg (by rw [hm]; exact Ne.symm h01), if_pos hm]; exact b1
    · intro hm
      rw [if_neg (by rw [hm]; exact Ne.symm h02), if_neg (by rw [hm]; exact Ne.symm h12),
        if_pos hm]
      exact b3
    · intro hm
      rw [if_neg (by rw [hm]; exact Ne.symm h03), if_neg (by rw [hm]; exact Ne.symm h13),
        if_neg (by rw [hm]; exact Ne.symm h23), if_pos hm]
      exact b5
    · intro hm
      rw [if_neg (by rw [hm]; exact Ne.symm h04), if_neg (by rw [hm]; exact Ne.symm h14),
        if_neg (by rw [hm]; exact Ne.symm h24), if_neg (by rw [hm]; exact Ne.symm h34),
        if_pos hm]
      exact b6

/-- C12, witness: with the mode register reading 0xAB, the switch to continuous
receive (5 in `sx127x`) writes a byte with the upper bits of 0xAB and low bits 5. -/
theorem LoRa_gotoMode_byte_witness :
    ∃ r w,
      (LoRa_gotoMode sx127x (fixedChip fun _ => 0xAB) (boot (cfg433 1)) 5).log =
        (boot (cfg433 1)).log ++ [Ev.rx [sx127x.RegOpMode % 256 &&& 0x7F] [r],
          Ev.tx [sx127x.RegOpMode % 256 ||| 0x80] [w]] ∧
      w &&& 0xF8 = r &&& 0xF8 ∧ w &&& 0x07 = 5 := by
  obtain ⟨r, w, hlog, hup, hlow⟩ :=
    LoRa_gotoMode_byte sx127x (fixedChip fun _ => 0xAB) (boot (cfg433 1)) 5
  exact ⟨r, w, hlog, hup, (hlow (by decide)).2.2.2.1 rfl⟩

/-! ## Address framing -/

theorem or_0x80_byte (a : Nat) (ha : a < 256) :
    128 ≤ (a ||| 0x80) ∧ (a ||| 0x80) < 256 ∧ (a ||| 0x80) % 128 = a % 128 := by
  have key : ∀ x, x < 256 → 128 ≤ (x ||| 0x80) ∧ (x ||| 0x80) < 256 ∧
      (x ||| 0x80) % 128 = x % 128 := by
    set_option maxRecDepth 8192 in decide
  exact key a ha

/-- C14.  For every 8-bit register address `a`: `LoRa_read` sends the single address byte
`a & 0x7F` (bit 7 clear, low seven bits those of `a`) and receives one byte;
`LoRa_write` sends the single address byte `a | 0x80` (bit 7 set, low seven bits
those of `a`) and then the value; `LoRa_BurstWrite` sends the single address byte
`a | 0x80` and then exactly the `length` payload bytes, in order.  This is what the
log records and what the chip is given. -/
theorem LoRa_address_framing (C : Chip σ) (s : Sys σ) (a : Nat) (ha : a < 256) (v : Nat)
    (value : Nat → Nat) (length : Nat) (hl : length < 256) :
    ((LoRa_read C s a).2.log = s.log ++ [Ev.rx [a &&& 0x7F] [(LoRa_read C s a).1]] ∧
      (LoRa_read C s a).2.chip = (C.readReg s.chip [a &&& 0x7F] 1).2) ∧
    ((LoRa_write C s a v).log = s.log ++ [Ev.tx [a ||| 0x80] [v % 256]] ∧
      (LoRa_write C s a v).chip = C.writeReg s.chip [a ||| 0x80] [v % 256]) ∧
    ((LoRa_BurstWrite C s a value length).log =
        s.log ++ [Ev.tx [a ||| 0x80] ((List.range length).map fun i => value i % 256)] ∧
      (LoRa_BurstWrite C s a value length).chip =
        C.writeReg s.chip [a ||| 0x80] ((List.range length).map fun i => value i % 256) ∧
      ((List.range length).map fun i => value i % 256).length = length ∧
      ∀ i, i < length → ((List.range length).map fun i => value i % 256).getD i 0 = value i % 256) ∧
    ((a &&& 0x7F) < 128 ∧ (a &&& 0x7F) % 128 = a % 128) ∧
    (128 ≤ (a ||| 0x80) ∧ (a ||| 0x80) < 256 ∧ (a ||| 0x80) % 128 = a % 128) := by
  have e7 : a &&& 0x7F = a % 128 := Nat.and_pow_two_sub_one_eq_mod a 7
  have hma : a % 256 = a := Nat.mod_eq_of_lt ha
  have hml : length % 256 = length := Nat.mod_eq_of_lt hl
  refine ⟨⟨?_, ?_⟩, ⟨?_, ?_⟩, ⟨?_, ?_, ?_, ?_⟩, ⟨?_, ?_⟩, or_0x80_byte a ha⟩
  · rw [LoRa_read_log, hma]
  · show (C.readReg s.chip [a % 256 &&& 0x7F] 1).2 = _
    rw [hma]
  · rw [LoRa_write_log, hma]
  · show C.writeReg s.chip [a % 256 ||| 0x80] [v % 256] = _
    rw [hma]
  · show s.log ++ [Ev.tx [a % 256 ||| 0x80]
        ((List.range (length % 256)).map fun i => value i % 256)] = _
    rw [hma, hml]
  · show C.writeReg s.chip [a % 256 ||| 0x80]
        ((List.range (length % 256)).map fun i => value i % 256) = _
    rw [hma, hml]
  · simp
  · intro i hi
    simp [List.getD_eq_getElem?_getD, hi]
  · rw [e7]; omega
  · rw [e7]; omega

/-- C14, witness: register address 0x9E is read through address byte 0x1E and written
through address byte 0x9E; a burst of three bytes follows the address byte in
order. -/
theorem LoRa_address_framing_witness :
    (LoRa_read (fixedChip fun _ => 7) (boot (cfg433 1)) 0x9E).2.log = [Ev.rx [0x1E] [7]] ∧
    (LoRa_write (fixedChip fun _ => 7) (boot (cfg433 1)) 0x1E 5).log = [Ev.tx [0x9E] [5]] ∧
    (LoRa_BurstWrite (fixedChip fun _ => 7) (boot (cfg433 1)) 0x00 (fun i => 10 + i) 3).log =
      [Ev.tx [0x80] [10, 11, 12]] ∧
    ((0x9E &&& 0x7F) < 128 ∧ (0x9E &&& 0x7F) % 128 = 0x9E % 128) :=
  ⟨by decide, by decide, by decide,
    (LoRa_address_framing (fixedChip fun _ => 7) (boot (cfg433 1)) 0x9E (by decide) 5
      (fun i => 10 + i) 3 (by decide)).2.2.2.1⟩

/-! ## Receive: zero fill, and the path without data -/

/-- C15.  After `LoRa_receive` has returned `n`, every buffer byte at an index `i` with
`n ≤ i < length` is 0.  When the interrupt-flags byte read has the receive-done
bit (0x40) clear, the result is 0, the whole buffer `[0, length)` is 0, and the
transactions of the call are the switch to standby, the flags read and the
switch to continuous receive: its only writes are the two to the mode register,
so there is none to the interrupt-flags register nor to the FIFO pointer
register when these are at another address.  (`length` is a `uint8_t`.) -/
theorem LoRa_receive_zero_fill (H : LoRa_h) (C : Chip σ) (s : Sys σ) (data : Nat → Nat)
    (length : Nat) :
    (∀ i, (LoRa_receive H C s data length).1 ≤ i → i < length % 256 →
      (LoRa_receive H C s data length).2.1 i = 0) ∧
    ((LoRa_read C (LoRa_gotoMode H C s H.STNBY_MODE) H.RegIrqFlags).1 &&& 0x40 = 0 →
      (LoRa_receive H C s data length).1 = 0 ∧
      (∀ i, i < length % 256 → (LoRa_receive H C s data length).2.1 i = 0) ∧
      ∃ m w flags m' w' evs,
        evs = [Ev.rx [H.RegOpMode % 256 &&& 0x7F] [m], Ev.tx [H.RegOpMode % 256 ||| 0x80] [w],
          Ev.rx [H.RegIrqFlags % 256 &&& 0x7F] [flags],
          Ev.rx [H.RegOpMode % 256 &&& 0x7F] [m'], Ev.tx [H.RegOpMode % 256 ||| 0x80] [w']] ∧
        (LoRa_receive H C s data length).2.2.log = s.log ++ evs ∧
        (H.RegOpMode % 256 ||| 0x80 ≠ H.RegIrqFlags % 256 ||| 0x80 →
          ∀ vals, Ev.tx [H.RegIrqFlags % 256 ||| 0x80] vals ∉ evs) ∧
        (H.RegOpMode % 256 ||| 0x80 ≠ H.RegFiFoAddPtr % 256 ||| 0x80 →
          ∀ vals, Ev.tx [H.RegFiFoAddPtr % 256 ||| 0x80] vals ∉ evs)) := by
  by_cases hdone : (LoRa_read C (LoRa_gotoMode H C s H.STNBY_MODE) H.RegIrqFlags).1 &&& 0x40 ≠ 0
  · let s1 := LoRa_gotoMode H C s H.STNBY_MODE
    let r1 := LoRa_read C s1 H.RegIrqFlags
    let s2 := LoRa_write C r1.2 H.RegIrqFlags 0xFF
    let r2 := LoRa_read C s2 H.RegRxNbBytes
    let r3 := LoRa_read C r2.2 H.RegFiFoRxCurrentAddr
    let s3 := LoRa_write C r3.2 H.RegFiFoAddPtr r3.1
    let mn := if length % 256 ≥ r2.1 then r2.1 else length % 256
    let c := LoRa_receive_copy H C mn 0 s3 (fun i => if i < length % 256 then 0 else data i)
    have hrec : LoRa_receive H C s data length =
        (mn, c.1, LoRa_gotoMode H C c.2 H.RXCONTIN_MODE) := by
      unfold LoRa_receive
      exact if_pos hdone
    rw [hrec]
    refine ⟨?_, fun h => absurd h hdone⟩
    intro i hn hi
    obtain ⟨_, _, _, _, _, hrest⟩ :=
      LoRa_receive_copy_spec H C mn 0 s3 (fun i => if i < length % 256 then 0 else data i)
    show c.1 i = 0
    rw [hrest i (Or.inr (by simpa using hn))]
    exact if_pos hi
  · have hrec : LoRa_receive H C s data length =
        (0, (fun i => if i < length % 256 then 0 else data i),
          LoRa_gotoMode H C (LoRa_read C (LoRa_gotoMode H C s H.STNBY_MODE) H.RegIrqFlags).2
            H.RXCONTIN_MODE) := by
      unfold LoRa_receive
      exact if_neg hdone
    rw [hrec]
    refine ⟨fun i _ hi => if_pos hi, fun _ => ⟨rfl, fun i hi => if_pos hi, ?_⟩⟩
    refine ⟨(LoRa_read C s H.RegOpMode).1,
      opModeByte H H.STNBY_MODE (LoRa_read C s H.RegOpMode).1 % 256,
      (LoRa_read C (LoRa_gotoMode H C s H.STNBY_MODE) H.RegIrqFlags).1,
      (LoRa_read C (LoRa_read C (LoRa_gotoMode H C s H.STNBY_MODE) H.RegIrqFlags).2
        H.RegOpMode).1,
      opModeByte H H.RXCONTIN_MODE
        (LoRa_read C (LoRa_read C (LoRa_gotoMode H C s H.STNBY_MODE) H.RegIrqFlags).2
          H.RegOpMode).1 % 256, _, rfl, ?_, ?_, ?_⟩
    · show (LoRa_gotoMode H C _ H.RXCONTIN_MODE).log = _
      rw [LoRa_gotoMode_log, LoRa_read_log, LoRa_gotoMode_log]
      simp only [List.append_assoc, List.cons_append, List.nil_append]
    · intro hne vals hmem
      simp only [List.mem_cons, Ev.tx.injEq, List.cons.injEq, and_true, List.mem_singleton,
        List.not_mem_nil, or_false, false_or, reduceCtorEq] at hmem
      rcases hmem with ⟨h, _⟩ | ⟨h, _⟩ <;> exact hne h.symm
    · intro hne vals hmem
      simp only [List.mem_cons, Ev.tx.injEq, List.cons.injEq, and_true, List.mem_singleton,
        List.not_mem_nil, or_false, false_or, reduceCtorEq] at hmem
      rcases hmem with ⟨h, _⟩ | ⟨h, _⟩ <;> exact hne h.symm

/-- C15, witness: a chip without data (flags 0) and a buffer of length 4 holding 1s:
the call returns 0, the four bytes are 0 and the byte behind them is untouched. -/
theorem LoRa_receive_zero_fill_witness :
    (LoRa_receive sx127x (fixedChip fun _ => 0) (boot (cfg433 1)) (fun _ => 1) 4).1 = 0 ∧
    (List.range 5).map (LoRa_receive sx127x (fixedChip fun _ => 0) (boot (cfg433 1))
      (fun _ => 1) 4).2.1 = [0, 0, 0, 0, 1] ∧
    (∀ i, i < 4 % 256 →
      (LoRa_receive sx127x (fixedChip fun _ => 0) (boot (cfg433 1)) (fun _ => 1) 4).2.1 i = 0) :=
  ⟨by decide, by decide,
    ((LoRa_receive_zero_fill sx127x (fixedChip fun _ => 0) (boot (cfg433 1)) (fun _ => 1) 4).2
      (by decide)).2.1⟩

/-! ## Initialisation as a composition of phases -/

theorem LoRa_init_eq (H : LoRa_h) (C : Chip σ) (s : Sys σ) :
    LoRa_init H C s =
      if (LoRa_read C (LoRa_init_leave H C (LoRa_init_framing H C (LoRa_init_modem H C
          (LoRa_init_radio H C (LoRa_init_enter H C s))))) H.RegVersion).1 = 0x12 then
        (H.LORA_OK, (LoRa_read C (LoRa_init_leave H C (LoRa_init_framing H C (LoRa_init_modem H C
          (LoRa_init_radio H C (LoRa_init_enter H C s))))) H.RegVersion).2)
      else
        (H.LORA_NOT_FOUND, (LoRa_read C (LoRa_init_leave H C (LoRa_init_framing H C
          (LoRa_init_modem H C (LoRa_init_radio H C (LoRa_init_enter H C s))))) H.RegVersion).2) :=
  rfl

theorem LoRa_init_state (H : LoRa_h) (C : Chip σ) (s : Sys σ) :
    (LoRa_init H C s).2 =
      (LoRa_read C (LoRa_init_leave H C (LoRa_init_framing H C (LoRa_init_modem H C
        (LoRa_init_radio H C (LoRa_init_enter H C s))))) H.RegVersion).2 := by
  rw [LoRa_init_eq]
  split_ifs <;> rfl

/-! ## The setters leave the `LoRa` object alone -/

@[simp] theorem LoRa_setLowDaraRateOptimization_lora (H : LoRa_h) (C : Chip σ) (s : Sys σ)
    (value : Nat) : (LoRa_setLowDaraRateOptimization H C s value).lora = s.lora := rfl

@[simp] theorem LoRa_setAutoLDO_lora (H : LoRa_h) (C : Chip σ) (s : Sys σ) :
    (LoRa_setAutoLDO H C s).lora = s.lora := rfl

@[simp] theorem LoRa_setFrequency_lora (H : LoRa_h) (C : Chip σ) (s : Sys σ) (freq : Int) :
    (LoRa_setFrequency H C s freq).lora = s.lora := rfl

@[simp] theorem LoRa_setSpreadingFactor_lora (H : LoRa_h) (C : Chip σ) (s : Sys σ) (SF : Int) :
    (LoRa_setSpreadingFactor H C s SF).lora = s.lora := rfl

@[simp] theorem LoRa_setPower_lora (H : LoRa_h) (C : Chip σ) (s : Sys σ) (power : Nat) :
    (LoRa_setPower H C s power).lora = s.lora := rfl

@[simp] theorem LoRa_setOCP_lora (H : LoRa_h) (C : Chip σ) (s : Sys σ) (current : Nat) :
    (LoRa_setOCP H C s current).lora = s.lora := rfl

@[simp] theorem LoRa_setTOMsb_setCRCon_lora (H : LoRa_h) (C : Chip σ) (s : Sys σ) :
    (LoRa_setTOMsb_setCRCon H C s).lora = s.lora := rfl

@[simp] theorem LoRa_setSyncWord_lora (H : LoRa_h) (C : Chip σ) (s : Sys σ) (syncword : Nat) :
    (LoRa_setSyncWord H C s syncword).lora = s.lora := rfl

/-! ## The driver on a register file -/

theorem read_index (a : Nat) : (a % 256 &&& 0x7F) % 128 = a % 128 := by
  have e7 : a % 256 &&& 0x7F = a % 256 % 128 := Nat.and_pow_two_sub_one_eq_mod (a % 256) 7
  rw [e7]; omega

theorem write_index (a : Nat) : (a % 256 ||| 0x80) % 128 = a % 128 := by
  have h := (or_0x80_byte (a % 256) (Nat.mod_lt _ (by norm_num))).2.2
  rw [h]; omega

theorem regFile_read_val (s : Sys (Nat → Nat)) (a : Nat) :
    (LoRa_read regFile s a).1 = s.chip (a % 128) % 256 := by
  have h : (LoRa_read regFile s a).1 = s.chip ((a % 256 &&& 0x7F) % 128) % 256 := by
    simp [LoRa_read, LoRa_readReg, regFile, List.range_succ]
  rw [h, read_index]

@[simp] theorem regFile_read_chip (s : Sys (Nat → Nat)) (a : Nat) :
    (LoRa_read regFile s a).2.chip = s.chip := rfl

@[simp] theorem regFile_delay_chip (s : Sys (Nat → Nat)) (ms : Nat) :
    (HAL_Delay regFile s ms).chip = s.chip := rfl

theorem regFile_write_chip (s : Sys (Nat → Nat)) (a v : Nat) :
    (LoRa_write regFile s a v).chip = Function.update s.chip (a % 128) (v % 256) := by
  have h : (LoRa_write regFile s a v).chip =
      Function.update s.chip ((a % 256 ||| 0x80) % 128) (v % 256) := rfl
  rw [h, write_index]

theorem regFile_gotoMode_chip (H : LoRa_h) (s : Sys (Nat → Nat)) (mode : Int) :
    (LoRa_gotoMode H regFile s mode).chip =
      Function.update s.chip (H.RegOpMode % 128)
        (opModeByte H mode (s.chip (H.RegOpMode % 128) % 256) % 256) := by
  unfold LoRa_gotoMode opModeByte
  split_ifs <;> simp only [regFile_write_chip, regFile_read_chip, regFile_read_val]

theorem regFile_write_frame (s : Sys (Nat → Nat)) (a v k : Nat) (h : k ≠ a % 128) :
    (LoRa_write regFile s a v).chip k = s.chip k := by
  rw [regFile_write_chip]
  exact Function.update_noteq h _ _

theorem regFile_write_same (s : Sys (Nat → Nat)) (a v : Nat) :
    (LoRa_write regFile s a v).chip (a % 128) = v % 256 := by
  rw [regFile_write_chip]
  exact Function.update_same _ _ _

theorem regFile_gotoMode_frame (H : LoRa_h) (s : Sys (Nat → Nat)) (mode : Int) (k : Nat)
    (h : k ≠ H.RegOpMode % 128) : (LoRa_gotoMode H regFile s mode).chip k = s.chip k := by
  rw [regFile_gotoMode_chip]
  exact Function.update_noteq h _ _

theorem regFile_setLowDaraRateOptimization_chip (H : LoRa_h) (s : Sys (Nat → Nat)) (value : Nat) :
    (LoRa_setLowDaraRateOptimization H regFile s value).chip =
      Function.update s.chip (H.RegModemConfig3 % 128)
        ((if value % 256 ≠ 0 then s.chip (H.RegModemConfig3 % 128) % 256 ||| 0x08
          else s.chip (H.RegModemConfig3 % 128) % 256 &&& 0xF7) % 256) := by
  unfold LoRa_setLowDaraRateOptimization
  simp only [regFile_delay_chip, regFile_write_chip, regFile_read_chip, regFile_read_val]

theorem regFile_setAutoLDO_chip (H : LoRa_h) (s : Sys (Nat → Nat)) :
    (LoRa_setAutoLDO H regFile s).chip =
      Function.update s.chip (H.RegModemConfig3 % 128)
        ((if LoRa_setAutoLDO_value H s.lora % 256 ≠ 0 then
            s.chip (H.RegModemConfig3 % 128) % 256 ||| 0x08
          else s.chip (H.RegModemConfig3 % 128) % 256 &&& 0xF7) % 256) := by
  unfold LoRa_setAutoLDO
  rw [regFile_setLowDaraRateOptimization_chip]

theorem regFile_setAutoLDO_frame (H : LoRa_h) (s : Sys (Nat → Nat)) (k : Nat)
    (h : k ≠ H.RegModemConfig3 % 128) : (LoRa_setAutoLDO H regFile s).chip k = s.chip k := by
  rw [regFile_setAutoLDO_chip]
  exact Function.update_noteq h _ _

theorem regFile_setLowDaraRateOptimization_frame (H : LoRa_h) (s : Sys (Nat → Nat))
    (value k : Nat) (h : k ≠ H.RegModemConfig3 % 128) :
    (LoRa_setLowDaraRateOptimization H regFile s value).chip k = s.chip k := by
  rw [regFile_setLowDaraRateOptimization_chip]
  exact Function.update_noteq h _ _

theorem regFile_setFrequency_frame (H : LoRa_h) (s : Sys (Nat → Nat)) (freq : Int) (k : Nat)
    (h1 : k ≠ H.RegFrMsb % 128) (h2 : k ≠ H.RegFrMid % 128) (h3 : k ≠ H.RegFrLsb % 128) :
    (LoRa_setFrequency H regFile s freq).chip k = s.chip k := by
  unfold LoRa_setFrequency
  simp only [regFile_delay_chip]
  rw [regFile_write_frame _ _ _ _ h3, regFile_delay_chip, regFile_write_frame _ _ _ _ h2,
    regFile_delay_chip, regFile_write_frame _ _ _ _ h1]

theorem regFile_setPower_frame (H : LoRa_h) (s : Sys (Nat → Nat)) (power k : Nat)
    (h : k ≠ H.RegPaConfig % 128) : (LoRa_setPower H regFile s power).chip k = s.chip k := by
  unfold LoRa_setPower
  simp only [regFile_delay_chip]
  rw [regFile_write_frame _ _ _ _ h]

theorem regFile_setSyncWord_frame (H : LoRa_h) (s : Sys (Nat → Nat)) (syncword k : Nat)
    (h : k ≠ H.RegSyncWord % 128) :
    (LoRa_setSyncWord H regFile s syncword).chip k = s.chip k := by
  unfold LoRa_setSyncWord
  simp only [regFile_delay_chip]
  rw [regFile_write_frame _ _ _ _ h]

/-- On a register file `LoRa_setOCP` leaves `trim + 32` in `RegOcp`. -/
theorem regFile_setOCP_chip (H : LoRa_h) (s : Sys (Nat → Nat)) (current : Nat) :
    (LoRa_setOCP H regFile s current).chip =
      Function.update s.chip (H.RegOcp % 128) (ocpTrim (current % 256) + 32) := by
  have hlog := LoRa_setOCP_log H regFile s current
  have hchip : ∀ v, (LoRa_setOCP H regFile s current).log =
      s.log ++ [Ev.tx [H.RegOcp % 256 ||| 0x80] [v], Ev.delay 10] →
      (LoRa_setOCP H regFile s current).chip = Function.update s.chip (H.RegOcp % 128) v := by
    intro v hv
    unfold LoRa_setOCP at hv ⊢
    simp only [HAL_Delay_log, LoRa_write_log, List.append_assoc, List.cons_append,
      List.nil_append, List.append_cancel_left_eq, List.cons.injEq, Ev.tx.injEq, and_true,
      true_and] at hv
    simp only [regFile_delay_chip, regFile_write_chip]
    rw [hv]
  exact hchip _ hlog

theorem regFile_setOCP_frame (H : LoRa_h) (s : Sys (Nat → Nat)) (current k : Nat)
    (h : k ≠ H.RegOcp % 128) : (LoRa_setOCP H regFile s current).chip k = s.chip k := by
  rw [regFile_setOCP_chip]
  exact Function.update_noteq h _ _

theorem regFile_setTOMsb_setCRCon_chip (H : LoRa_h) (s : Sys (Nat → Nat)) :
    (LoRa_setTOMsb_setCRCon H regFile s).chip =
      Function.update s.chip (H.RegModemConfig2 % 128)
        ((s.chip (H.RegModemConfig2 % 128) % 256 ||| 0x07) % 256) := by
  unfold LoRa_setTOMsb_setCRCon
  simp only [regFile_delay_chip, regFile_write_chip, regFile_read_chip, regFile_read_val]

theorem regFile_setTOMsb_setCRCon_frame (H : LoRa_h) (s : Sys (Nat → Nat)) (k : Nat)
    (h : k ≠ H.RegModemConfig2 % 128) :
    (LoRa_setTOMsb_setCRCon H regFile s).chip k = s.chip k := by
  rw [regFile_setTOMsb_setCRCon_chip]
  exact Function.update_noteq h _ _

/-- The byte `LoRa_setSpreadingFactor` writes to `RegModemConfig2` when it has read `read`. -/
theorem regFile_setSpreadingFactor_chip (H : LoRa_h) (s : Sys (Nat → Nat)) (SF : Int) :
    (LoRa_setSpreadingFactor H regFile s SF).chip =
      (LoRa_setAutoLDO H regFile
        (HAL_Delay regFile
          (LoRa_write regFile (HAL_Delay regFile (LoRa_read regFile s H.RegModemConfig2).2 10)
            H.RegModemConfig2
            (((max 7 (min 12 SF)).toNat <<< 4) + (s.chip (H.RegModemConfig2 % 128) % 256 &&& 0x0F)))
          10)).chip := by
  have hc : (if (if SF > 12 then 12 else SF) < 7 then 7 else (if SF > 12 then 12 else SF)) =
      max 7 (min 12 SF) := by
    split_ifs <;> omega
  unfold LoRa_setSpreadingFactor
  simp only [regFile_read_val, hc]

theorem regFile_setSpreadingFactor_frame (H : LoRa_h) (s : Sys (Nat → Nat)) (SF : Int) (k : Nat)
    (h2 : k ≠ H.RegModemConfig2 % 128) (h3 : k ≠ H.RegModemConfig3 % 128) :
    (LoRa_setSpreadingFactor H regFile s SF).chip k = s.chip k := by
  rw [regFile_setSpreadingFactor_chip, regFile_setAutoLDO_frame _ _ _ h3, regFile_delay_chip,
    regFile_write_frame _ _ _ _ h2, regFile_delay_chip, regFile_read_chip]

/-! ## The invariant of the mode cache -/

theorem isDriverMode_of_hwCode (H : LoRa_h) (mode : Int) (c : Nat) (h : hwCode H mode = some c) :
    isDriverMode H mode := by
  unfold hwCode at h
  unfold isDriverMode
  split_ifs at h with h0 h1 h2 h3 h4
  · exact Or.inl h0
  · exact Or.inr (Or.inl h1)
  · exact Or.inr (Or.inr (Or.inl h2))
  · exact Or.inr (Or.inr (Or.inr (Or.inl h3)))
  · exact Or.inr (Or.inr (Or.inr (Or.inr h4)))

theorem mod_256_and_7 (x : Nat) : x % 256 &&& 0x07 = x &&& 0x07 := by
  have e : ∀ y : Nat, y &&& 0x07 = y % 8 := fun y => Nat.and_pow_two_sub_one_eq_mod y 3
  rw [e, e]; omega

/-- The code `LoRa_gotoMode` writes for one of the five modes is the hardware code of
the mode it caches. -/
theorem hwCode_modeAfter (H : LoRa_h) (cur mode : Int) (r : Nat) (hr : r < 256)
    (hm : isDriverMode H mode) :
    hwCode H (modeAfter H cur mode) = some (opModeByte H mode r % 256 &&& 0x07) := by
  obtain ⟨⟨_, b0⟩, ⟨_, b1⟩, ⟨_, b3⟩, ⟨_, b5⟩, ⟨_, b6⟩⟩ := opMode_bits r hr
  unfold isDriverMode at hm
  by_cases h0 : mode = H.SLEEP_MODE
  · simp only [modeAfter, opModeByte, hwCode, if_pos h0, if_true, b0]
  by_cases h1 : mode = H.STNBY_MODE
  · have e0 : ¬ H.STNBY_MODE = H.SLEEP_MODE := fun e => h0 (h1.trans e)
    simp only [modeAfter, opModeByte, hwCode, if_neg h0, if_pos h1, if_neg e0, if_true, b1]
  by_cases h2 : mode = H.TRANSMIT_MODE
  · have e0 : ¬ H.TRANSMIT_MODE = H.SLEEP_MODE := fun e => h0 (h2.trans e)
    have e1 : ¬ H.TRANSMIT_MODE = H.STNBY_MODE := fun e => h1 (h2.trans e)
    simp only [modeAfter, opModeByte, hwCode, if_neg h0, if_neg h1, if_pos h2, if_neg e0,
      if_neg e1, if_true, b3]
  by_cases h3 : mode = H.RXCONTIN_MODE
  · have e0 : ¬ H.RXCONTIN_MODE = H.SLEEP_MODE := fun e => h0 (h3.trans e)
    have e1 : ¬ H.RXCONTIN_MODE = H.STNBY_MODE := fun e => h1 (h3.trans e)
    have e2 : ¬ H.RXCONTIN_MODE = H.TRANSMIT_MODE := fun e => h2 (h3.trans e)
    simp only [modeAfter, opModeByte, hwCode, if_neg h0, if_neg h1, if_neg h2, if_pos h3,
      if_neg e0, if_neg e1, if_neg e2, if_true, b5]
  by_cases h4 : mode = H.RXSINGLE_MODE
  · have e0 : ¬ H.RXSINGLE_MODE = H.SLEEP_MODE := fun e => h0 (h4.trans e)
    have e1 : ¬ H.RXSINGLE_MODE = H.STNBY_MODE := fun e => h1 (h4.trans e)
    have e2 : ¬ H.RXSINGLE_MODE = H.TRANSMIT_MODE := fun e => h2 (h4.trans e)
    have e3 : ¬ H.RXSINGLE_MODE = H.RXCONTIN_MODE := fun e => h3 (h4.trans e)
    simp only [modeAfter, opModeByte, hwCode, if_neg h0, if_neg h1, if_neg h2, if_neg h3,
      if_pos h4, if_neg e0, if_neg e1, if_neg e2, if_neg e3, if_true, b6]
  · rcases hm with h | h | h | h | h <;> contradiction

theorem modeInv_gotoMode (H : LoRa_h) (s : Sys (Nat → Nat)) (mode : Int)
    (hm : isDriverMode H mode) : modeInv H (LoRa_gotoMode H regFile s mode) := by
  unfold modeInv
  rw [LoRa_gotoMode_lora, regFile_gotoMode_chip, Function.update_same]
  exact hwCode_modeAfter H _ mode _ (Nat.mod_lt _ (by norm_num)) hm

theorem modeInv_gotoMode_any (H : LoRa_h) (s : Sys (Nat → Nat)) (mode : Int)
    (h : modeInv H s) : modeInv H (LoRa_gotoMode H regFile s mode) := by
  by_cases hm : isDriverMode H mode
  · exact modeInv_gotoMode H s mode hm
  · unfold isDriverMode at hm
    simp only [not_or] at hm
    obtain ⟨h0, h1, h2, h3, h4⟩ := hm
    unfold modeInv at h ⊢
    rw [LoRa_gotoMode_lora, regFile_gotoMode_chip, Function.update_same]
    simp only [modeAfter, opModeByte, if_neg h0, if_neg h1, if_neg h2, if_neg h3, if_neg h4,
      Nat.mod_mod, mod_256_and_7]
    exact h

theorem modeInv_of_frame (H : LoRa_h) (s s' : Sys (Nat → Nat)) (hl : s'.lora = s.lora)
    (hc : s'.chip (H.RegOpMode % 128) = s.chip (H.RegOpMode % 128)) (h : modeInv H s) :
    modeInv H s' := by
  unfold modeInv at h ⊢
  rw [hl, hc]
  exact h

theorem LoRa_init_leave_modeInv (H : LoRa_h) (s : Sys (Nat → Nat)) :
    modeInv H (LoRa_init_leave H regFile s) := by
  have h := modeInv_gotoMode H s H.STNBY_MODE (Or.inr (Or.inl rfl))
  unfold modeInv at h ⊢
  rw [LoRa_gotoMode_lora, modeAfter_of_isDriverMode H _ _ (Or.inr (Or.inl rfl))] at h
  exact h

theorem LoRa_receive_ends_in_gotoMode (H : LoRa_h) (C : Chip σ) (s : Sys σ) (data : Nat → Nat)
    (length : Nat) :
    ∃ sX, (LoRa_receive H C s data length).2.2 = LoRa_gotoMode H C sX H.RXCONTIN_MODE := by
  unfold LoRa_receive
  by_cases hdone : (LoRa_read C (LoRa_gotoMode H C s H.STNBY_MODE) H.RegIrqFlags).1 &&& 0x40 ≠ 0
  · simp only [hdone, ne_eq, not_false_eq_true, if_true]
    exact ⟨_, rfl⟩
  · simp only [hdone, ne_eq, not_false_eq_true, if_false]
    exact ⟨_, rfl⟩

/-- C13.  On a register file, the predicate "the hardware code of `current_mode` is the
low three bits of the mode register" holds after every `LoRa_gotoMode` with one of
the five modes, and once it holds it still holds after `LoRa_gotoMode` with any
argument, after `LoRa_init`, after `LoRa_transmit` (which returns), after
`LoRa_receive` and `LoRa_startReceiving`, and, the mode register being at another
address than the registers the setters write, after each configuration setter. -/
theorem mode_cache_invariant (H : LoRa_h) (s : Sys (Nat → Nat)) :
    (∀ mode, isDriverMode H mode → modeInv H (LoRa_gotoMode H regFile s mode)) ∧
    (modeInv H s →
      (∀ mode, modeInv H (LoRa_gotoMode H regFile s mode)) ∧
      modeInv H (LoRa_init H regFile s).2 ∧
      (∀ fuel data length timeout, 65536 ≤ fuel →
        ∃ ret s', LoRa_transmit H regFile fuel s data length timeout = some (ret, s') ∧
          modeInv H s') ∧
      (∀ data length, modeInv H (LoRa_receive H regFile s data length).2.2) ∧
      modeInv H (LoRa_startReceiving H regFile s) ∧
      (apartFrom H.RegOpMode (setterRegs H) →
        (∀ freq, modeInv H (LoRa_setFrequency H regFile s freq)) ∧
        (∀ SF, modeInv H (LoRa_setSpreadingFactor H regFile s SF)) ∧
        (∀ power, modeInv H (LoRa_setPower H regFile s power)) ∧
        (∀ current, modeInv H (LoRa_setOCP H regFile s current)) ∧
        modeInv H (LoRa_setTOMsb_setCRCon H regFile s) ∧
        (∀ syncword, modeInv H (LoRa_setSyncWord H regFile s syncword)) ∧
        modeInv H (LoRa_setAutoLDO H regFile s) ∧
        (∀ value, modeInv H (LoRa_setLowDaraRateOptimization H regFile s value)))) := by
  refine ⟨fun mode hm => modeInv_gotoMode H s mode hm, fun hinv => ⟨?_, ?_, ?_, ?_, ?_, ?_⟩⟩
  · exact fun mode => modeInv_gotoMode_any H s mode hinv
  · rw [LoRa_init_state]
    exact modeInv_of_frame H _ _ rfl rfl (LoRa_init_leave_modeInv H _)
  · intro fuel data length timeout hf
    have hm : isDriverMode H s.lora.current_mode := isDriverMode_of_hwCode H _ _ hinv
    rw [LoRa_transmit_eq]
    obtain ⟨vs, sp, _, _, _, _, hres⟩ :=
      LoRa_transmit_loop_spec H regFile s.lora.current_mode fuel
        (LoRa_transmit_setup H regFile s data length) (timeout % 65536)
        (Nat.mod_lt _ (by norm_num)) (lt_of_lt_of_le (Nat.mod_lt _ (by norm_num)) hf)
    rcases hres with ⟨_, hr⟩ | ⟨_, _, hr⟩
    · exact ⟨_, _, hr, modeInv_gotoMode H _ _ hm⟩
    · exact ⟨_, _, hr, modeInv_gotoMode H _ _ hm⟩
  · intro data length
    obtain ⟨sX, hX⟩ := LoRa_receive_ends_in_gotoMode H regFile s data length
    rw [hX]
    exact modeInv_gotoMode H sX _ (Or.inr (Or.inr (Or.inr (Or.inl rfl))))
  · exact modeInv_gotoMode H s _ (Or.inr (Or.inr (Or.inr (Or.inl rfl))))
  · intro hap
    have a1 := hap H.RegFrMsb (by simp [setterRegs])
    have a2 := hap H.RegFrMid (by simp [setterRegs])
    have a3 := hap H.RegFrLsb (by simp [setterRegs])
    have a4 := hap H.RegPaConfig (by simp [setterRegs])
    have a5 := hap H.RegOcp (by simp [setterRegs])
    have a6 := hap H.RegModemConfig2 (by simp [setterRegs])
    have a7 := hap H.RegModemConfig3 (by simp [setterRegs])
    have a8 := hap H.RegSyncWord (by simp [setterRegs])
    refine ⟨fun freq => ?_, fun SF => ?_, fun power => ?_, fun current => ?_, ?_,
      fun syncword => ?_, ?_, fun value => ?_⟩
    · exact modeInv_of_frame H s _ rfl (regFile_setFrequency_frame H s freq _ a1 a2 a3) hinv
    · exact modeInv_of_frame H s _ rfl (regFile_setSpreadingFactor_frame H s SF _ a6 a7) hinv
    · exact modeInv_of_frame H s _ rfl (regFile_setPower_frame H s power _ a4) hinv
    · exact modeInv_of_frame H s _ rfl (regFile_setOCP_frame H s current _ a5) hinv
    · exact modeInv_of_frame H s _ rfl (regFile_setTOMsb_setCRCon_frame H s _ a6) hinv
    · exact modeInv_of_frame H s _ rfl (regFile_setSyncWord_frame H s syncword _ a8) hinv
    · exact modeInv_of_frame H s _ rfl (regFile_setAutoLDO_frame H s _ a7) hinv
    · exact modeInv_of_frame H s _ rfl
        (regFile_setLowDaraRateOptimization_frame H s value _ a7) hinv

/-- C13, witness: a register file whose mode register holds 0x81 with `current_mode`
STANDBY satisfies the predicate, and it still does after `LoRa_init`, after a
transmit that times out, and after `LoRa_setOCP`. -/
theorem mode_cache_invariant_witness :
    modeInv sx127x (bootRegs (cfg433 1) fun _ => 0x81) ∧
    modeInv sx127x (LoRa_init sx127x regFile (bootRegs (cfg433 1) fun _ => 0x81)).2 ∧
    (∃ ret s', LoRa_transmit sx127x regFile 65536 (bootRegs (cfg433 1) fun _ => 0x81)
        (fun _ => 0) 1 2 = some (ret, s') ∧ modeInv sx127x s') ∧
    modeInv sx127x (LoRa_setOCP sx127x regFile (bootRegs (cfg433 1) fun _ => 0x81) 100) :=
  ⟨by decide,
    ((mode_cache_invariant sx127x (bootRegs (cfg433 1) fun _ => 0x81)).2 (by decide)).2.1,
    ((mode_cache_invariant sx127x (bootRegs (cfg433 1) fun _ => 0x81)).2 (by decide)).2.2.1
      65536 (fun _ => 0) 1 2 (by decide),
    (((mode_cache_invariant sx127x (bootRegs (cfg433 1) fun _ => 0x81)).2
      (by decide)).2.2.2.2.2 (by decide)).2.2.2.1 100⟩

/-! ## Initialisation on a register file -/

theorem LoRa_init_enter_lora (H : LoRa_h) (C : Chip σ) (s : Sys σ) :
    (LoRa_init_enter H C s).lora = { s.lora with current_mode := H.SLEEP_MODE } := by
  unfold LoRa_init_enter
  simp only [HAL_Delay_lora, LoRa_write_lora, LoRa_read_lora, LoRa_gotoMode_lora]
  rw [modeAfter_of_isDriverMode H _ _ (Or.inl rfl)]

@[simp] theorem LoRa_init_radio_lora (H : LoRa_h) (C : Chip σ) (s : Sys σ) :
    (LoRa_init_radio H C s).lora = s.lora := rfl

@[simp] theorem LoRa_init_modem_lora (H : LoRa_h) (C : Chip σ) (s : Sys σ) :
    (LoRa_init_modem H C s).lora = s.lora := rfl

@[simp] theorem LoRa_init_framing_lora (H : LoRa_h) (C : Chip σ) (s : Sys σ) :
    (LoRa_init_framing H C s).lora = s.lora := rfl

theorem LoRa_init_leave_lora (H : LoRa_h) (C : Chip σ) (s : Sys σ) :
    (LoRa_init_leave H C s).lora = { s.lora with current_mode := H.STNBY_MODE } := by
  unfold LoRa_init_leave
  simp only [HAL_Delay_lora, LoRa_gotoMode_lora]

theorem LoRa_init_enter_frame (H : LoRa_h) (s : Sys (Nat → Nat)) (k : Nat)
    (h : k ≠ H.RegOpMode % 128) : (LoRa_init_enter H regFile s).chip k = s.chip k := by
  unfold LoRa_init_enter
  simp only [regFile_delay_chip]
  rw [regFile_write_frame _ _ _ _ h, regFile_delay_chip, regFile_read_chip, regFile_delay_chip,
    regFile_gotoMode_frame _ _ _ _ h]

/-- After the first phase the mode register holds the byte read, with the low
three bits cleared and bit 7 set. -/
theorem LoRa_init_enter_opMode (H : LoRa_h) (s : Sys (Nat → Nat)) :
    (LoRa_init_enter H regFile s).chip (H.RegOpMode % 128) =
      ((((s.chip (H.RegOpMode % 128) % 256 &&& 0xF8) ||| 0x00) % 256 % 256 ||| 0x80) % 256) := by
  unfold LoRa_init_enter
  simp only [regFile_delay_chip, regFile_write_same, regFile_read_val, regFile_read_chip,
    regFile_gotoMode_chip, Function.update_same, opModeByte, if_true]

theorem LoRa_init_radio_frame (H : LoRa_h) (s : Sys (Nat → Nat)) (k : Nat)
    (h1 : k ≠ H.RegFrMsb % 128) (h2 : k ≠ H.RegFrMid % 128) (h3 : k ≠ H.RegFrLsb % 128)
    (h4 : k ≠ H.RegPaConfig % 128) (h5 : k ≠ H.RegOcp % 128) (h6 : k ≠ H.RegLna % 128) :
    (LoRa_init_radio H regFile s).chip k = s.chip k := by
  unfold LoRa_init_radio
  rw [regFile_write_frame _ _ _ _ h6, regFile_setOCP_frame _ _ _ _ h5,
    regFile_setPower_frame _ _ _ _ h4, regFile_setFrequency_frame _ _ _ _ h1 h2 h3]

theorem LoRa_init_modem_frame (H : LoRa_h) (s : Sys (Nat → Nat)) (k : Nat)
    (h2 : k ≠ H.RegModemConfig2 % 128) (h3 : k ≠ H.RegModemConfig3 % 128) :
    (LoRa_init_modem H regFile s).chip k = s.chip k := by
  unfold LoRa_init_modem
  rw [regFile_setSpreadingFactor_frame _ _ _ _ h2 h3, regFile_setTOMsb_setCRCon_frame _ _ _ h2]

/-- After the third phase `RegModemConfig2` holds the clamped spreading factor above
the low nibble of the byte read, with its bits 2..0 set. -/
theorem LoRa_init_modem_config2 (H : LoRa_h) (s : Sys (Nat → Nat))
    (h : H.RegModemConfig2 % 128 ≠ H.RegModemConfig3 % 128) :
    (LoRa_init_modem H regFile s).chip (H.RegModemConfig2 % 128) =
      (((max 7 (min 12 (s.lora.spredingFactor : Int))).toNat <<< 4) +
        ((s.chip (H.RegModemConfig2 % 128) % 256 ||| 0x07) % 256 % 256 &&& 0x0F)) % 256 := by
  unfold LoRa_init_modem
  rw [regFile_setSpreadingFactor_chip, regFile_setAutoLDO_frame _ _ _ h, regFile_delay_chip,
    regFile_write_same, regFile_setTOMsb_setCRCon_chip, Function.update_same]
  rfl

theorem LoRa_init_framing_frame (H : LoRa_h) (s : Sys (Nat → Nat)) (k : Nat)
    (h1 : k ≠ H.RegSymbTimeoutL % 128) (h2 : k ≠ H.RegModemConfig1 % 128)
    (h3 : k ≠ H.RegModemConfig3 % 128) (h4 : k ≠ H.RegPreambleMsb % 128)
    (h5 : k ≠ H.RegPreambleLsb % 128) (h6 : k ≠ H.RegDioMapping1 % 128) :
    (LoRa_init_framing H regFile s).chip k = s.chip k := by
  unfold LoRa_init_framing
  rw [regFile_write_frame _ _ _ _ h6, regFile_read_chip, regFile_write_frame _ _ _ _ h5,
    regFile_write_frame _ _ _ _ h4, regFile_setAutoLDO_frame _ _ _ h3,
    regFile_write_frame _ _ _ _ h2, regFile_write_frame _ _ _ _ h1]

theorem LoRa_init_leave_frame (H : LoRa_h) (s : Sys (Nat → Nat)) (k : Nat)
    (h : k ≠ H.RegOpMode % 128) : (LoRa_init_leave H regFile s).chip k = s.chip k := by
  unfold LoRa_init_leave
  simp only [regFile_delay_chip]
  exact regFile_gotoMode_frame H s _ k h

theorem LoRa_init_leave_opMode (H : LoRa_h) (s : Sys (Nat → Nat))
    (hne : H.STNBY_MODE ≠ H.SLEEP_MODE) :
    (LoRa_init_leave H regFile s).chip (H.RegOpMode % 128) =
      ((s.chip (H.RegOpMode % 128) % 256 &&& 0xF8) ||| 0x01) % 256 := by
  unfold LoRa_init_leave
  simp only [regFile_delay_chip]
  show (LoRa_gotoMode H regFile s H.STNBY_MODE).chip (H.RegOpMode % 128) = _
  rw [regFile_gotoMode_chip, Function.update_same]
  simp only [opModeByte, if_neg hne, if_true]

theorem init_opMode_bits (x : Nat) (hx : x < 256) :
    ((((((x &&& 0xF8) ||| 0x00) % 256 % 256 ||| 0x80) % 256) % 256 &&& 0xF8) ||| 0x01) % 256 =
      (x &&& 0x78) ||| 0x81 := by
  have key : ∀ y, y < 256 →
      ((((((y &&& 0xF8) ||| 0x00) % 256 % 256 ||| 0x80) % 256) % 256 &&& 0xF8) ||| 0x01) % 256 =
        (y &&& 0x78) ||| 0x81 := by
    set_option maxRecDepth 8192 in decide
  exact key x hx

/-- C17.  On a register file, for every `LoRa` object and every byte `r` in the mode
register before the call, after `LoRa_init` the mode register holds
`(r & 0x78) | 0x81` and `current_mode` is `STNBY_MODE`.  (The header is one in which
`STNBY_MODE` differs from `SLEEP_MODE` and the mode register is at another address
than the registers configured in between.) -/
theorem LoRa_init_mode_register (H : LoRa_h) (s : Sys (Nat → Nat))
    (hne : H.STNBY_MODE ≠ H.SLEEP_MODE)
    (hreg : apartFrom H.RegOpMode (H.RegModemConfig2 :: initRegs H)) :
    (LoRa_init H regFile s).2.chip (H.RegOpMode % 128) =
      (s.chip (H.RegOpMode % 128) % 256 &&& 0x78) ||| 0x81 ∧
    (LoRa_init H regFile s).2.lora.current_mode = H.STNBY_MODE := by
  have a0 := hreg H.RegModemConfig2 (by simp)
  have a1 := hreg H.RegFrMsb (by simp [initRegs])
  have a2 := hreg H.RegFrMid (by simp [initRegs])
  have a3 := hreg H.RegFrLsb (by simp [initRegs])
  have a4 := hreg H.RegPaConfig (by simp [initRegs])
  have a5 := hreg H.RegOcp (by simp [initRegs])
  have a6 := hreg H.RegLna (by simp [initRegs])
  have a7 := hreg H.RegModemConfig3 (by simp [initRegs])
  have a8 := hreg H.RegSymbTimeoutL (by simp [initRegs])
  have a9 := hreg H.RegModemConfig1 (by simp [initRegs])
  have a10 := hreg H.RegPreambleMsb (by simp [initRegs])
  have a11 := hreg H.RegPreambleLsb (by simp [initRegs])
  have a12 := hreg H.RegDioMapping1 (by simp [initRegs])
  rw [LoRa_init_state]
  constructor
  · rw [regFile_read_chip, LoRa_init_leave_opMode H _ hne,
      LoRa_init_framing_frame H _ _ a8 a9 a7 a10 a11 a12, LoRa_init_modem_frame H _ _ a0 a7,
      LoRa_init_radio_frame H _ _ a1 a2 a3 a4 a5 a6, LoRa_init_enter_opMode]
    exact init_opMode_bits _ (Nat.mod_lt _ (by norm_num))
  · rw [LoRa_read_lora, LoRa_init_leave_lora]

/-- C17, witness: from a mode register holding 0x7E (FSK mode, low bits 6), `LoRa_init`
leaves 0xF9 there and caches STANDBY. -/
theorem LoRa_init_mode_register_witness :
    (LoRa_init sx127x regFile (bootRegs (cfg433 6) fun _ => 0x7E)).2.chip
        (sx127x.RegOpMode % 128) =
      ((bootRegs (cfg433 6) fun _ => 0x7E).chip (sx127x.RegOpMode % 128) % 256 &&& 0x78)
        ||| 0x81 ∧
    (LoRa_init sx127x regFile (bootRegs (cfg433 6) fun _ => 0x7E)).2.lora.current_mode =
      sx127x.STNBY_MODE :=
  LoRa_init_mode_register sx127x (bootRegs (cfg433 6) fun _ => 0x7E) (by decide) (by decide)

theorem init_config2_bits (c x : Nat) (hc7 : 7 ≤ c) (hc12 : c ≤ 12) (hx : x < 256) :
    (((c <<< 4) + ((x ||| 0x07) % 256 % 256 &&& 0x0F)) % 256) >>> 4 = c ∧
    ((c <<< 4) + ((x ||| 0x07) % 256 % 256 &&& 0x0F)) % 256 &&& 0x07 = 0x07 ∧
    ((c <<< 4) + ((x ||| 0x07) % 256 % 256 &&& 0x0F)) % 256 &&& 0x08 = x &&& 0x08 := by
  have key : ∀ d, d < 13 → 7 ≤ d → ∀ y, y < 256 →
      (((d <<< 4) + ((y ||| 0x07) % 256 % 256 &&& 0x0F)) % 256) >>> 4 = d ∧
      ((d <<< 4) + ((y ||| 0x07) % 256 % 256 &&& 0x0F)) % 256 &&& 0x07 = 0x07 ∧
      ((d <<< 4) + ((y ||| 0x07) % 256 % 256 &&& 0x0F)) % 256 &&& 0x08 = y &&& 0x08 := by
    set_option maxRecDepth 8192 in decide
  exact key c (by omega) hc7 x hx

/-- C16.  On a register file, for every `LoRa` object and every byte `r` in
`RegModemConfig2` before the call, after `LoRa_init` that register has its high
nibble equal to the stored spreading factor clamped to 7..12, its bits 2..0 all
set, and its bit 3 equal to that of `r`.  (The header is one in which
`RegModemConfig2` is at another address than the other registers `LoRa_init`
writes.) -/
theorem LoRa_init_modem_config2_final (H : LoRa_h) (s : Sys (Nat → Nat))
    (hreg : apartFrom H.RegModemConfig2 (H.RegOpMode :: initRegs H)) :
    (((LoRa_init H regFile s).2.chip (H.RegModemConfig2 % 128) >>> 4 : Nat) : Int) =
      max 7 (min 12 (s.lora.spredingFactor : Int)) ∧
    (LoRa_init H regFile s).2.chip (H.RegModemConfig2 % 128) &&& 0x07 = 0x07 ∧
    (LoRa_init H regFile s).2.chip (H.RegModemConfig2 % 128) &&& 0x08 =
      s.chip (H.RegModemConfig2 % 128) % 256 &&& 0x08 := by
  have a0 := hreg H.RegOpMode (by simp)
  have a1 := hreg H.RegFrMsb (by simp [initRegs])
  have a2 := hreg H.RegFrMid (by simp [initRegs])
  have a3 := hreg H.RegFrLsb (by simp [initRegs])
  have a4 := hreg H.RegPaConfig (by simp [initRegs])
  have a5 := hreg H.RegOcp (by simp [initRegs])
  have a6 := hreg H.RegLna (by simp [initRegs])
  have a7 := hreg H.RegModemConfig3 (by simp [initRegs])
  have a8 := hreg H.RegSymbTimeoutL (by simp [initRegs])
  have a9 := hreg H.RegModemConfig1 (by simp [initRegs])
  have a10 := hreg H.RegPreambleMsb (by simp [initRegs])
  have a11 := hreg H.RegPreambleLsb (by simp [initRegs])
  have a12 := hreg H.RegDioMapping1 (by simp [initRegs])
  have hfinal : (LoRa_init H regFile s).2.chip (H.RegModemConfig2 % 128) =
      (((max 7 (min 12 (s.lora.spredingFactor : Int))).toNat <<< 4) +
        ((s.chip (H.RegModemConfig2 % 128) % 256 ||| 0x07) % 256 % 256 &&& 0x0F)) % 256 := by
    rw [LoRa_init_state, regFile_read_chip, LoRa_init_leave_frame H _ _ a0,
      LoRa_init_framing_frame H _ _ a8 a9 a7 a10 a11 a12, LoRa_init_modem_config2 H _ a7,
      LoRa_init_radio_lora, LoRa_init_radio_frame H _ _ a1 a2 a3 a4 a5 a6,
      LoRa_init_enter_lora, LoRa_init_enter_frame H _ _ a0]
  obtain ⟨b1, b2, b3⟩ := init_config2_bits (max 7 (min 12 (s.lora.spredingFactor : Int))).toNat
    (s.chip (H.RegModemConfig2 % 128) % 256) (by omega) (by omega)
    (Nat.mod_lt _ (by norm_num))
  rw [hfinal]
  refine ⟨?_, b2, b3⟩
  rw [b1]
  omega

/-- C16, witness: spreading factor 7 and `RegModemConfig2` holding 0x08 before the call:
afterwards it holds 0x7F (nibble 7, bits 2..0 set, bit 3 kept). -/
theorem LoRa_init_modem_config2_final_witness :
    (LoRa_init sx127x regFile (bootRegs (cfg433 1) fun _ => 0x08)).2.chip
        (sx127x.RegModemConfig2 % 128) = 0x7F ∧
    ((((LoRa_init sx127x regFile (bootRegs (cfg433 1) fun _ => 0x08)).2.chip
          (sx127x.RegModemConfig2 % 128) >>> 4 : Nat) : Int) =
        max 7 (min 12 ((bootRegs (cfg433 1) fun _ => 0x08).lora.spredingFactor : Int)) ∧
      (LoRa_init sx127x regFile (bootRegs (cfg433 1) fun _ => 0x08)).2.chip
          (sx127x.RegModemConfig2 % 128) &&& 0x07 = 0x07 ∧
      (LoRa_init sx127x regFile (bootRegs (cfg433 1) fun _ => 0x08)).2.chip
          (sx127x.RegModemConfig2 % 128) &&& 0x08 =
        (bootRegs (cfg433 1) fun _ => 0x08).chip (sx127x.RegModemConfig2 % 128) % 256 &&& 0x08) :=
  ⟨by decide,
    LoRa_init_modem_config2_final sx127x (bootRegs (cfg433 1) fun _ => 0x08) (by decide)⟩

/-! ## Re-applying a setting -/

theorem ldoByte_lt (value read : Nat) : ldoByte value read < 256 :=
  Nat.mod_lt _ (by norm_num)

theorem sfByte_lt (c read : Nat) : sfByte c read < 256 :=
  Nat.mod_lt _ (by norm_num)

theorem ldoByte_idem (value y : Nat) (hy : y < 256) :
    ldoByte value (ldoByte value y % 256) = ldoByte value y := by
  have k1 : ∀ x, x < 256 → ((x ||| 0x08) % 256 % 256 ||| 0x08) % 256 = (x ||| 0x08) % 256 := by
    set_option maxRecDepth 8192 in decide
  have k2 : ∀ x, x < 256 → ((x &&& 0xF7) % 256 % 256 &&& 0xF7) % 256 = (x &&& 0xF7) % 256 := by
    set_option maxRecDepth 8192 in decide
  unfold ldoByte
  split_ifs
  · exact k1 y hy
  · exact k2 y hy

theorem sfByte_idem (c y : Nat) : sfByte c (sfByte c y % 256) = sfByte c y := by
  have e4 : ∀ x : Nat, x &&& 0x0F = x % 16 := fun x => Nat.and_pow_two_sub_one_eq_mod x 4
  unfold sfByte
  simp only [e4, Nat.shiftLeft_eq]
  omega

/-- Setting the spreading-factor nibble and the optimisation bit of one and the same
byte, twice over, gives what doing it once gives. -/
theorem ldoByte_sfByte_idem (value c y : Nat) (hc7 : 7 ≤ c) (hc12 : c ≤ 12) (hy : y < 256) :
    ldoByte value (sfByte c (ldoByte value (sfByte c y % 256) % 256) % 256) =
      ldoByte value (sfByte c y % 256) := by
  have k1 : ∀ d, d < 13 → 7 ≤ d → ∀ x, x < 256 →
      ((((d <<< 4) + (((((d <<< 4) + (x &&& 0x0F)) % 256 % 256 ||| 0x08) % 256 % 256) &&& 0x0F))
        % 256 % 256) ||| 0x08) % 256 =
        (((d <<< 4) + (x &&& 0x0F)) % 256 % 256 ||| 0x08) % 256 := by
    set_option maxRecDepth 8192 in decide
  have k2 : ∀ d, d < 13 → 7 ≤ d → ∀ x, x < 256 →
      ((((d <<< 4) + (((((d <<< 4) + (x &&& 0x0F)) % 256 % 256 &&& 0xF7) % 256 % 256) &&& 0x0F))
        % 256 % 256) &&& 0xF7) % 256 =
        (((d <<< 4) + (x &&& 0x0F)) % 256 % 256 &&& 0xF7) % 256 := by
    set_option maxRecDepth 8192 in decide
  unfold ldoByte sfByte
  split_ifs
  · exact k1 c (by omega) hc7 y hy
  · exact k2 c (by omega) hc7 y hy

theorem opModeByte_idem (H : LoRa_h) (mode : Int) (y : Nat) (hy : y < 256) :
    opModeByte H mode (opModeByte H mode y % 256 % 256) % 256 = opModeByte H mode y % 256 := by
  have key : ∀ x, x < 256 →
      ((((x &&& 0xF8) ||| 0x00) % 256 % 256 &&& 0xF8) ||| 0x00) % 256 =
        ((x &&& 0xF8) ||| 0x00) % 256 ∧
      ((((x &&& 0xF8) ||| 0x01) % 256 % 256 &&& 0xF8) ||| 0x01) % 256 =
        ((x &&& 0xF8) ||| 0x01) % 256 ∧
      ((((x &&& 0xF8) ||| 0x03) % 256 % 256 &&& 0xF8) ||| 0x03) % 256 =
        ((x &&& 0xF8) ||| 0x03) % 256 ∧
      ((((x &&& 0xF8) ||| 0x05) % 256 % 256 &&& 0xF8) ||| 0x05) % 256 =
        ((x &&& 0xF8) ||| 0x05) % 256 ∧
      ((((x &&& 0xF8) ||| 0x06) % 256 % 256 &&& 0xF8) ||| 0x06) % 256 =
        ((x &&& 0xF8) ||| 0x06) % 256 := by
    set_option maxRecDepth 8192 in decide
  obtain ⟨k0, k1, k3, k5, k6⟩ := key y hy
  unfold opModeByte
  split_ifs
  · exact k0
  · exact k1
  · exact k3
  · exact k5
  · exact k6
  · simp only [Nat.mod_mod]

theorem modeAfter_idem (H : LoRa_h) (cur mode : Int) :
    modeAfter H (modeAfter H cur mode) mode = modeAfter H cur mode := by
  unfold modeAfter
  split_ifs <;> rfl

theorem regFile_setAutoLDO_chip_ldoByte (H : LoRa_h) (s : Sys (Nat → Nat)) :
    (LoRa_setAutoLDO H regFile s).chip =
      Function.update s.chip (H.RegModemConfig3 % 128)
        (ldoByte (LoRa_setAutoLDO_value H s.lora) (s.chip (H.RegModemConfig3 % 128) % 256)) :=
  regFile_setAutoLDO_chip H s

theorem regFile_setSpreadingFactor_chip_bytes (H : LoRa_h) (s : Sys (Nat → Nat)) (SF : Int) :
    (LoRa_setSpreadingFactor H regFile s SF).chip =
      Function.update
        (Function.update s.chip (H.RegModemConfig2 % 128)
          (sfByte (max 7 (min 12 SF)).toNat (s.chip (H.RegModemConfig2 % 128) % 256)))
        (H.RegModemConfig3 % 128)
        (ldoByte (LoRa_setAutoLDO_value H s.lora)
          (Function.update s.chip (H.RegModemConfig2 % 128)
            (sfByte (max 7 (min 12 SF)).toNat (s.chip (H.RegModemConfig2 % 128) % 256))
            (H.RegModemConfig3 % 128) % 256)) := by
  rw [regFile_setSpreadingFactor_chip, regFile_setAutoLDO_chip_ldoByte]
  simp only [regFile_delay_chip, regFile_write_chip, regFile_read_chip, HAL_Delay_lora,
    LoRa_write_lora, LoRa_read_lora]
  rfl

theorem regFile_setSpreadingFactor_twice (H : LoRa_h) (s : Sys (Nat → Nat)) (SF : Int) :
    (LoRa_setSpreadingFactor H regFile (LoRa_setSpreadingFactor H regFile s SF) SF).chip =
      (LoRa_setSpreadingFactor H regFile s SF).chip := by
  have hc7 : 7 ≤ (max 7 (min 12 SF)).toNat := by omega
  have hc12 : (max 7 (min 12 SF)).toNat ≤ 12 := by omega
  rw [regFile_setSpreadingFactor_chip_bytes H (LoRa_setSpreadingFactor H regFile s SF) SF,
    LoRa_setSpreadingFactor_lora, regFile_setSpreadingFactor_chip_bytes H s SF]
  generalize (max 7 (min 12 SF)).toNat = c at hc7 hc12 ⊢
  generalize LoRa_setAutoLDO_value H s.lora = v
  generalize s.chip = regs
  have hy2 : regs (H.RegModemConfig2 % 128) % 256 < 256 := Nat.mod_lt _ (by norm_num)
  have hy3 : regs (H.RegModemConfig3 % 128) % 256 < 256 := Nat.mod_lt _ (by norm_num)
  by_cases h : H.RegModemConfig2 % 128 = H.RegModemConfig3 % 128
  · rw [← h]
    simp only [Function.update_same, Function.update_idem]
    rw [ldoByte_sfByte_idem v c _ hc7 hc12 hy2]
  · have h' : H.RegModemConfig3 % 128 ≠ H.RegModemConfig2 % 128 := fun e => h e.symm
    simp only [Function.update_same, Function.update_noteq h, Function.update_noteq h', ne_eq,
      not_false_eq_true]
    rw [sfByte_idem c _, ldoByte_idem v _ hy3]
    funext k
    simp only [Function.update_apply]
    split_ifs <;> rfl

/-- C18.  On a register file, calling `LoRa_setAutoLDO`, `LoRa_setSpreadingFactor(SF)`,
`LoRa_setTOMsb_setCRCon`, `LoRa_setOCP(mA)` or `LoRa_gotoMode(mode)` a second time
with the same argument changes neither the register file nor the `LoRa` object:
both are as after the first call. -/
theorem config_idempotent (H : LoRa_h) (s : Sys (Nat → Nat)) (SF : Int) (mA : Nat) (mode : Int) :
    ((LoRa_setAutoLDO H regFile (LoRa_setAutoLDO H regFile s)).chip =
        (LoRa_setAutoLDO H regFile s).chip ∧
      (LoRa_setAutoLDO H regFile (LoRa_setAutoLDO H regFile s)).lora =
        (LoRa_setAutoLDO H regFile s).lora) ∧
    ((LoRa_setSpreadingFactor H regFile (LoRa_setSpreadingFactor H regFile s SF) SF).chip =
        (LoRa_setSpreadingFactor H regFile s SF).chip ∧
      (LoRa_setSpreadingFactor H regFile (LoRa_setSpreadingFactor H regFile s SF) SF).lora =
        (LoRa_setSpreadingFactor H regFile s SF).lora) ∧
    ((LoRa_setTOMsb_setCRCon H regFile (LoRa_setTOMsb_setCRCon H regFile s)).chip =
        (LoRa_setTOMsb_setCRCon H regFile s).chip ∧
      (LoRa_setTOMsb_setCRCon H regFile (LoRa_setTOMsb_setCRCon H regFile s)).lora =
        (LoRa_setTOMsb_setCRCon H regFile s).lora) ∧
    ((LoRa_setOCP H regFile (LoRa_setOCP H regFile s mA) mA).chip =
        (LoRa_setOCP H regFile s mA).chip ∧
      (LoRa_setOCP H regFile (LoRa_setOCP H regFile s mA) mA).lora =
        (LoRa_setOCP H regFile s mA).lora) ∧
    ((LoRa_gotoMode H regFile (LoRa_gotoMode H regFile s mode) mode).chip =
        (LoRa_gotoMode H regFile s mode).chip ∧
      (LoRa_gotoMode H regFile (LoRa_gotoMode H regFile s mode) mode).lora =
        (LoRa_gotoMode H regFile s mode).lora) := by
  refine ⟨⟨?_, by simp only [LoRa_setAutoLDO_lora]⟩,
    ⟨regFile_setSpreadingFactor_twice H s SF, by simp only [LoRa_setSpreadingFactor_lora]⟩,
    ⟨?_, by simp only [LoRa_setTOMsb_setCRCon_lora]⟩, ⟨?_, by simp only [LoRa_setOCP_lora]⟩,
    ⟨?_, ?_⟩⟩
  · rw [regFile_setAutoLDO_chip_ldoByte H (LoRa_setAutoLDO H regFile s), LoRa_setAutoLDO_lora,
      regFile_setAutoLDO_chip_ldoByte H s, Function.update_same, Function.update_idem,
      ldoByte_idem _ _ (Nat.mod_lt _ (by norm_num))]
  · have k : ∀ x, x < 256 → ((x ||| 0x07) % 256 % 256 ||| 0x07) % 256 = (x ||| 0x07) % 256 := by
      set_option maxRecDepth 8192 in decide
    rw [regFile_setTOMsb_setCRCon_chip H (LoRa_setTOMsb_setCRCon H regFile s),
      regFile_setTOMsb_setCRCon_chip H s, Function.update_same, Function.update_idem,
      k _ (Nat.mod_lt _ (by norm_num))]
  · rw [regFile_setOCP_chip H (LoRa_setOCP H regFile s mA), regFile_setOCP_chip H s,
      Function.update_idem]
  · rw [regFile_gotoMode_chip H (LoRa_gotoMode H regFile s mode), regFile_gotoMode_chip H s,
      Function.update_same, Function.update_idem,
      opModeByte_idem H mode _ (Nat.mod_lt _ (by norm_num))]
  · rw [LoRa_gotoMode_lora, LoRa_gotoMode_lora]
    simp only [modeAfter_idem]

/-! ## The spreading-factor argument and the optimisation bit -/

theorem LoRa_setSpreadingFactor_eq (H : LoRa_h) (C : Chip σ) (s : Sys σ) (SF : Int) :
    LoRa_setSpreadingFactor H C s SF =
      LoRa_setAutoLDO H C (LoRa_setSpreadingFactor_nibble H C s SF) := rfl

@[simp] theorem LoRa_setSpreadingFactor_nibble_lora (H : LoRa_h) (C : Chip σ) (s : Sys σ)
    (SF : Int) : (LoRa_setSpreadingFactor_nibble H C s SF).lora = s.lora := rfl

/-- The transactions of `LoRa_setAutoLDO`: read of `RegModemConfig3`, write-back with bit 3
set or cleared according to the stored settings, 10 ms. -/
theorem LoRa_setAutoLDO_log (H : LoRa_h) (C : Chip σ) (s : Sys σ) :
    (LoRa_setAutoLDO H C s).log =
      s.log ++ [Ev.rx [H.RegModemConfig3 % 256 &&& 0x7F] [(LoRa_read C s H.RegModemConfig3).1],
        Ev.tx [H.RegModemConfig3 % 256 ||| 0x80]
          [ldoByte (LoRa_setAutoLDO_value H s.lora) (LoRa_read C s H.RegModemConfig3).1],
        Ev.delay 10] := by
  unfold LoRa_setAutoLDO LoRa_setLowDaraRateOptimization
  simp only [HAL_Delay_log, LoRa_write_log, LoRa_read_log, List.append_assoc, List.cons_append,
    List.nil_append]
  rfl

theorem ldoByte_bit (value read : Nat) (h : read < 256) :
    ldoByte value read &&& 0x08 = if value % 256 ≠ 0 then 0x08 else 0 := by
  have k1 : ∀ x, x < 256 → (x ||| 0x08) % 256 &&& 0x08 = 0x08 := by
    set_option maxRecDepth 8192 in decide
  have k2 : ∀ x, x < 256 → (x &&& 0xF7) % 256 &&& 0x08 = 0 := by
    set_option maxRecDepth 8192 in decide
  unfold ldoByte
  split_ifs
  · exact k1 read h
  · exact k2 read h

theorem regFile_setSpreadingFactor_nibble_frame (H : LoRa_h) (s : Sys (Nat → Nat)) (SF : Int)
    (k : Nat) (h : k ≠ H.RegModemConfig2 % 128) :
    (LoRa_setSpreadingFactor_nibble H regFile s SF).chip k = s.chip k := by
  unfold LoRa_setSpreadingFactor_nibble
  simp only [regFile_delay_chip]
  rw [regFile_write_frame _ _ _ _ h, regFile_delay_chip, regFile_read_chip]

/-- C19.  `LoRa_setSpreadingFactor(SF)` leaves the `LoRa` object, stored spreading factor
included, as it was.  Its last three transactions are the read of
`RegModemConfig3`, the write-back and 10 ms; the byte written back is the byte
read with bit 3 set or cleared as decided from the stored settings alone, a
decision that depends on the stored spreading factor and bandwidth index only
and not on `SF`.  On a register file with `RegModemConfig2` and `RegModemConfig3` at
different addresses, two arguments `SF1`, `SF2` applied to the same state read and
write the same bytes there. -/
theorem LoRa_setSpreadingFactor_ldo_independent (H : LoRa_h) :
    (∀ (C : Chip σ) (s : Sys σ) (SF : Int), (LoRa_setSpreadingFactor H C s SF).lora = s.lora) ∧
    (∀ l l' : LoRa, l.spredingFactor = l'.spredingFactor → l.bandWidth = l'.bandWidth →
      LoRa_setAutoLDO_value H l = LoRa_setAutoLDO_value H l') ∧
    (∀ (C : Chip σ) (s : Sys σ) (SF : Int), ∃ before r,
      (LoRa_setSpreadingFactor H C s SF).log =
        before ++ [Ev.rx [H.RegModemConfig3 % 256 &&& 0x7F] [r],
          Ev.tx [H.RegModemConfig3 % 256 ||| 0x80] [ldoByte (LoRa_setAutoLDO_value H s.lora) r],
          Ev.delay 10] ∧
      ldoByte (LoRa_setAutoLDO_value H s.lora) r &&& 0x08 =
        (if LoRa_setAutoLDO_value H s.lora % 256 ≠ 0 then 0x08 else 0)) ∧
    (∀ (s : Sys (Nat → Nat)) (SF1 SF2 : Int),
      H.RegModemConfig2 % 128 ≠ H.RegModemConfig3 % 128 →
      ∃ before1 before2 r w,
        (LoRa_setSpreadingFactor H regFile s SF1).log =
          before1 ++ [Ev.rx [H.RegModemConfig3 % 256 &&& 0x7F] [r],
            Ev.tx [H.RegModemConfig3 % 256 ||| 0x80] [w], Ev.delay 10] ∧
        (LoRa_setSpreadingFactor H regFile s SF2).log =
          before2 ++ [Ev.rx [H.RegModemConfig3 % 256 &&& 0x7F] [r],
            Ev.tx [H.RegModemConfig3 % 256 ||| 0x80] [w], Ev.delay 10]) := by
  refine ⟨fun C s SF => rfl, ?_, ?_, ?_⟩
  · intro l l' hsf hbw
    unfold LoRa_setAutoLDO_value
    rw [hsf, hbw]
  · intro C s SF
    refine ⟨(LoRa_setSpreadingFactor_nibble H C s SF).log,
      (LoRa_read C (LoRa_setSpreadingFactor_nibble H C s SF) H.RegModemConfig3).1, ?_,
      ldoByte_bit _ _ (LoRa_read_lt C _ H.RegModemConfig3)⟩
    rw [LoRa_setSpreadingFactor_eq, LoRa_setAutoLDO_log, LoRa_setSpreadingFactor_nibble_lora]
  · intro s SF1 SF2 hne
    have h32 : H.RegModemConfig3 % 128 ≠ H.RegModemConfig2 % 128 := fun e => hne e.symm
    refine ⟨(LoRa_setSpreadingFactor_nibble H regFile s SF1).log,
      (LoRa_setSpreadingFactor_nibble H regFile s SF2).log,
      s.chip (H.RegModemConfig3 % 128) % 256,
      ldoByte (LoRa_setAutoLDO_value H s.lora) (s.chip (H.RegModemConfig3 % 128) % 256), ?_, ?_⟩
    · rw [LoRa_setSpreadingFactor_eq, LoRa_setAutoLDO_log, LoRa_setSpreadingFactor_nibble_lora,
        regFile_read_val, regFile_setSpreadingFactor_nibble_frame H s SF1 _ h32]
    · rw [LoRa_setSpreadingFactor_eq, LoRa_setAutoLDO_log, LoRa_setSpreadingFactor_nibble_lora,
        regFile_read_val, regFile_setSpreadingFactor_nibble_frame H s SF2 _ h32]

/-- C19, witness: with spreading factor 7 stored and `RegModemConfig3` holding 0xFF, the
arguments 7 and 12 both end with 0xFF read from and 0xF7 written to
`RegModemConfig3`, and the stored spreading factor is still 7. -/
theorem LoRa_setSpreadingFactor_ldo_independent_witness :
    (LoRa_setSpreadingFactor sx127x regFile (bootRegs (cfg433 1) fun _ => 0xFF) 12).lora.spredingFactor
        = 7 ∧
    (LoRa_setSpreadingFactor sx127x regFile (bootRegs (cfg433 1) fun _ => 0xFF) 7).log.drop 4 =
      [Ev.rx [0x26] [0xFF], Ev.tx [0xA6] [0xF7], Ev.delay 10] ∧
    (LoRa_setSpreadingFactor sx127x regFile (bootRegs (cfg433 1) fun _ => 0xFF) 12).log.drop 4 =
      [Ev.rx [0x26] [0xFF], Ev.tx [0xA6] [0xF7], Ev.delay 10] ∧
    ∃ before1 before2 r w,
      (LoRa_setSpreadingFactor sx127x regFile (bootRegs (cfg433 1) fun _ => 0xFF) 7).log =
        before1 ++ [Ev.rx [sx127x.RegModemConfig3 % 256 &&& 0x7F] [r],
          Ev.tx [sx127x.RegModemConfig3 % 256 ||| 0x80] [w], Ev.delay 10] ∧
      (LoRa_setSpreadingFactor sx127x regFile (bootRegs (cfg433 1) fun _ => 0xFF) 12).log =
        before2 ++ [Ev.rx [sx127x.RegModemConfig3 % 256 &&& 0x7F] [r],
          Ev.tx [sx127x.RegModemConfig3 % 256 ||| 0x80] [w], Ev.delay 10] :=
  ⟨by decide, by decide, by decide,
    (@LoRa_setSpreadingFactor_ldo_independent Unit sx127x).2.2.2
      (bootRegs (cfg433 1) fun _ => 0xFF)
      7 12 (by decide)⟩

/-! ## The cached mode is always one of the five modes -/

theorem isDriverMode_modeAfter (H : LoRa_h) (cur mode : Int) (h : isDriverMode H cur) :
    isDriverMode H (modeAfter H cur mode) := by
  unfold modeAfter
  split_ifs
  · exact Or.inl rfl
  · exact Or.inr (Or.inl rfl)
  · exact Or.inr (Or.inr (Or.inl rfl))
  · exact Or.inr (Or.inr (Or.inr (Or.inl rfl)))
  · exact Or.inr (Or.inr (Or.inr (Or.inr rfl)))
  · exact h

/-- After `LoRa_init` the cached mode is `STNBY_MODE`, one of the five modes, whatever it
was before. -/
theorem LoRa_init_isDriverMode (H : LoRa_h) (C : Chip σ) (s : Sys σ) :
    isDriverMode H (LoRa_init H C s).2.lora.current_mode := by
  rw [LoRa_init_state, LoRa_read_lora, LoRa_init_leave_lora]
  exact Or.inr (Or.inl rfl)

/-- A call of `LoRa_gotoMode`, with any argument, keeps the cached mode among the five modes. -/
theorem LoRa_gotoMode_isDriverMode (H : LoRa_h) (C : Chip σ) (s : Sys σ) (mode : Int)
    (h : isDriverMode H s.lora.current_mode) :
    isDriverMode H (LoRa_gotoMode H C s mode).lora.current_mode := by
  rw [LoRa_gotoMode_lora]
  exact isDriverMode_modeAfter H _ mode h

/-- After `LoRa_receive` the cached mode is one of the five modes. -/
theorem LoRa_receive_isDriverMode (H : LoRa_h) (C : Chip σ) (s : Sys σ) (data : Nat → Nat)
    (length : Nat) : isDriverMode H (LoRa_receive H C s data length).2.2.lora.current_mode := by
  obtain ⟨sX, hX⟩ := LoRa_receive_ends_in_gotoMode H C s data length
  rw [hX, LoRa_gotoMode_lora,
    modeAfter_of_isDriverMode H _ _ (Or.inr (Or.inr (Or.inr (Or.inl rfl))))]
  exact Or.inr (Or.inr (Or.inr (Or.inl rfl)))

end LoRaDriver
